import Mathlib

/-!
# Structured errors (package `serr`): embedding and verified properties

A shallow embedding of `serr.go` (the three structured error variants, their
`Error`, `message` and `Unwrap` methods, the constructors `New`, `Wrap`,
`WrapMulti`, the attribute constructors, `attrsToSlog`, `Log` and its four
level functions), of `conv.go` (`ErrNotPermitted`, `ToGRPC`), of the
`attributed` type of `serr_test.go`, and of the parts of the libraries the code
calls (`strings.Builder`, `strings.Join`, the `%v` verb of `fmt`, `errors.Is`,
`errors.As`, the field constructors and `Logger.Log` of `log/slog`,
`sql.ErrNoRows`, `uuid.IsInvalidLengthError`, `status.Error` and the codes of
gRPC).

Conventions.
* A Go call that panics is modelled by `none`; a call that returns `v` by `some v`.
  Functions of the source that have no panicking path are total functions.
* A pointer is modelled by the address it holds (a natural number); two pointers
  of the same type are equal exactly when their addresses are.
* The Go interface type `error` is `Option GoError`: `none` is the nil interface.
-/

/-- The Go type `string`. -/
abbrev string := String

/-- The Go type `int` (no arithmetic is performed on it by this package). -/
abbrev int := Int

namespace uuid

/-- A `uuid.UUID` of github.com/google/uuid, kept abstract: the value is
identified by its canonical text form, which is what `String()` returns. -/
structure UUID where
  canonical : string
deriving DecidableEq, Repr

/-- The method `func (uuid UUID) String() string`. -/
def UUID.String (u : UUID) : string := u.canonical

end uuid

namespace time

/-- A `time.Time` of the standard library, kept abstract: the instant it denotes
and the text its `String()` method returns for it. -/
structure Time where
  unixNano : int
  text : string
deriving DecidableEq, Repr

/-- The method `func (t Time) String() string`. -/
def Time.String (t : Time) : string := t.text

end time

namespace strings

/-- A `strings.Builder`: the text accumulated so far. -/
abbrev Builder := string

/-- The method `(*Builder).WriteString`. -/
def Builder.WriteString (b : Builder) (s : string) : Builder := b ++ s

/-- The method `(*Builder).WriteByte`, for an ASCII byte. -/
def Builder.WriteByte (b : Builder) (c : Char) : Builder := b.push c

/-- The method `(*Builder).String`. -/
def Builder.String (b : Builder) : string := b

/-- The function `strings.Join(elems, sep)`. -/
def Join : List string → string → string
  | [], _ => ""
  | [a], _ => a
  | a :: b :: rest, sep => a ++ sep ++ Join (b :: rest) sep

end strings

namespace serr

/-- A Go value of a dynamic type that is none of `string`, `int`, `uuid.UUID`,
`time.Time` and that does not implement `error`; it is abstracted to the name of
its type and the text the `%v` verb renders for it. -/
structure Opaque where
  typ : string
  text : string
deriving DecidableEq, Repr

mutual

/-- A value of the Go type `interface{}`, by dynamic type. -/
inductive Value where
  | null
  | str (s : string)
  | int (n : int)
  | uuid (u : uuid.UUID)
  | time (t : time.Time)
  | err (e : GoError)
  | other (o : Opaque)

/-- The struct `Attr`: a named attribute associated with an error. -/
inductive Attr where
  | mk (key : string) (value : Value)

/-- The struct `serror`. -/
inductive serror where
  | mk (msg : string) (attrs : List Attr)

/-- The struct `wrapped`; the field `err` is of interface type and may be nil. -/
inductive wrapped where
  | mk (msg : string) (err : Option GoError) (attrs : List Attr)

/-- The struct `wrappedMulti`. -/
inductive wrappedMulti where
  | mk (msg : string) (errs : List (Option GoError)) (attrs : List Attr)

/-- A non-nil value of the interface type `error`, by dynamic type:
`*errors.errorString`, `uuid.invalidLengthError`, `*json.SyntaxError`, and the
three pointer types of this package. `p` is the address a pointer holds. -/
inductive GoError where
  | errorString (p : Nat) (s : string)
  | invalidLengthError (len : int)
  | SyntaxError (p : Nat) (msg : string) (Offset : int)
  | serror (p : Nat) (se : serror)
  | wrapped (p : Nat) (se : wrapped)
  | wrappedMulti (p : Nat) (se : wrappedMulti)

end

/-- The Go interface type `error`; `none` is nil. -/
abbrev error := Option GoError

/-- Field `key` of `Attr`. -/
def Attr.key : Attr → string
  | .mk key _ => key

/-- Field `value` of `Attr`. -/
def Attr.value : Attr → Value
  | .mk _ value => value

/-- Field `msg` of `serror`. -/
def serror.msg : serror → string
  | .mk msg _ => msg

/-- Field `attrs` of `serror`. -/
def serror.attrs : serror → List Attr
  | .mk _ attrs => attrs

/-- Field `msg` of `wrapped`. -/
def wrapped.msg : wrapped → string
  | .mk msg _ _ => msg

/-- Field `err` of `wrapped`. -/
def wrapped.err : wrapped → error
  | .mk _ err _ => err

/-- Field `attrs` of `wrapped`. -/
def wrapped.attrs : wrapped → List Attr
  | .mk _ _ attrs => attrs

/-- Field `msg` of `wrappedMulti`. -/
def wrappedMulti.msg : wrappedMulti → string
  | .mk msg _ _ => msg

/-- Field `errs` of `wrappedMulti`. -/
def wrappedMulti.errs : wrappedMulti → List error
  | .mk _ errs _ => errs

/-- Field `attrs` of `wrappedMulti`. -/
def wrappedMulti.attrs : wrappedMulti → List Attr
  | .mk _ _ attrs => attrs

/-- What `fmt` writes for the `%v` verb when the `Error` method of the operand
panics with a nil dereference (the panic is recovered by `fmt`). -/
def fmtPanic : string :=
  "%!v(PANIC=Error method: runtime error: invalid memory address or nil pointer dereference)"

mutual

/-- The text `fmt` renders for a value under the `%v` verb: a string as itself,
an int in decimal, a `Stringer` (`uuid.UUID`, `time.Time`) by `String()`, an
error by `Error()`, nil as `<nil>`. -/
def fmtV : Value → string
  | .null => "<nil>"
  | .str s => s
  | .int n => toString n
  | .uuid u => u.String
  | .time t => t.String
  | .err e =>
    match GoError.Error e with
    | some s => s
    | none => fmtPanic
  | .other o => o.text

/-- The body of the loop `for _, attr := range se.attrs` of the three `Error`
methods: `WriteByte(' ')`, `WriteString(attr.key)`, `WriteByte('=')` and
`fmt.Fprintf(&sb, "%v", attr.value)`, which appends the value under `%v`. -/
def writeAttr (sb : strings.Builder) : Attr → strings.Builder
  | .mk key value => ((sb.WriteByte ' ').WriteString key).WriteByte '=' ++ fmtV value

/-- The loop `for _, attr := range se.attrs` of the three `Error` methods. -/
def writeAttrs (sb : strings.Builder) : List Attr → strings.Builder
  | [] => sb
  | attr :: rest => writeAttrs (writeAttr sb attr) rest

/-- The call `err.Error()` on a value of interface type `error`: a nil
interface panics. -/
def error.Error : Option GoError → Option string
  | none => none
  | some e => GoError.Error e

/-- The loop `for _, err := range se.errs { sfx = append(sfx, err.Error()) }`
of `(*wrappedMulti).message`. -/
def collectTexts (sfx : List string) : List (Option GoError) → Option (List string)
  | [] => some sfx
  | err :: rest =>
    match error.Error err with
    | none => none
    | some t => collectTexts (sfx ++ [t]) rest

/-- The method `Error` of a non-nil error value, dispatched on its dynamic type.
The arms of the three pointer types of the package are the bodies of
`serror.Error`, `wrapped.Error` and `wrappedMulti.Error` below, unfolded so that
the recursion is structural; `Error_serror`, `Error_wrapped` and
`Error_wrappedMulti` state the agreement. -/
def GoError.Error : GoError → Option string
  | .errorString _ s => some s
  | .invalidLengthError len => some ("invalid UUID length: " ++ toString len)
  | .SyntaxError _ msg _ => some msg
  | .serror _ (.mk msg attrs) =>
    some (writeAttrs (strings.Builder.WriteString "" msg) attrs)
  | .wrapped _ (.mk msg err attrs) =>
    match (if msg = "" then error.Error err
      else match error.Error err with
        | none => none
        | some t => some (msg ++ ": " ++ t)) with
    | none => none
    | some m => some (writeAttrs (strings.Builder.WriteString "" m) attrs)
  | .wrappedMulti _ (.mk msg errs attrs) =>
    match (match collectTexts [] errs with
      | none => none
      | some sfx =>
        if msg = "" then some (strings.Join sfx "/")
        else some (msg ++ ": " ++ strings.Join sfx "/")) with
    | none => none
    | some m => some (writeAttrs (strings.Builder.WriteString "" m) attrs)

end

/-- The method `(*serror).Error`. -/
def serror.Error (se : serror) : string :=
  let sb : strings.Builder := ""
  let sb := sb.WriteString se.msg
  let sb := writeAttrs sb se.attrs
  sb.String

/-- The method `(*wrapped).message`; `se.err.Error()` panics on a nil `se.err`. -/
def wrapped.message (se : wrapped) : Option string :=
  if se.msg = "" then
    error.Error se.err
  else
    match error.Error se.err with
    | none => none
    | some t => some (se.msg ++ ": " ++ t)

/-- The method `(*wrapped).Error`. -/
def wrapped.Error (se : wrapped) : Option string :=
  match se.message with
  | none => none
  | some m =>
    let sb : strings.Builder := ""
    let sb := sb.WriteString m
    let sb := writeAttrs sb se.attrs
    some sb.String

/-- The method `(*wrapped).Unwrap`. -/
def wrapped.Unwrap (se : wrapped) : error := se.err

/-- The method `(*wrappedMulti).message`. -/
def wrappedMulti.message (se : wrappedMulti) : Option string :=
  match collectTexts [] se.errs with
  | none => none
  | some sfx =>
    if se.msg = "" then
      some (strings.Join sfx "/")
    else
      some (se.msg ++ ": " ++ strings.Join sfx "/")

/-- The method `(*wrappedMulti).Error`. -/
def wrappedMulti.Error (se : wrappedMulti) : Option string :=
  match se.message with
  | none => none
  | some m =>
    let sb : strings.Builder := ""
    let sb := sb.WriteString m
    let sb := writeAttrs sb se.attrs
    some sb.String

/-- The method `(*wrappedMulti).Unwrap`. -/
def wrappedMulti.Unwrap (se : wrappedMulti) : List error := se.errs

/-- The function `String`: a string-valued attribute. -/
def String (key value : string) : Attr := Attr.mk key (Value.str value)

/-- The function `Int`: an integer-valued attribute. -/
def Int (key : string) (value : int) : Attr := Attr.mk key (Value.int value)

/-- The function `UUID`: a uuid-valued attribute. -/
def UUID (key : string) (value : uuid.UUID) : Attr := Attr.mk key (Value.uuid value)

/-- The function `Time`: a time-valued attribute. -/
def Time (key : string) (value : time.Time) : Attr := Attr.mk key (Value.time value)

/-- The conversion of a value of interface type `error` to `interface{}`: a nil
error is the nil interface. -/
def errorToAny : error → Value
  | none => Value.null
  | some e => Value.err e

/-- The function `Error`: an error-valued attribute. -/
def Error (key : string) (value : error) : Attr := Attr.mk key (errorToAny value)

/-- The function `Any`: an untyped attribute. -/
def Any (key : string) (value : Value) : Attr := Attr.mk key value

/-- The function `New`; `p` is the address of the allocated `serror`. -/
def New (p : Nat) (msg : string) (attrs : List Attr) : GoError :=
  GoError.serror p (serror.mk msg attrs)

/-- The function `Wrap`; `p` is the address of the allocated `wrapped`. -/
def Wrap (p : Nat) (msg : string) (err : error) (attrs : List Attr) : GoError :=
  GoError.wrapped p (wrapped.mk msg err attrs)

/-- The function `WrapMulti`; `p` is the address of the allocated `wrappedMulti`. -/
def WrapMulti (p : Nat) (msg : string) (errs : List error) (attrs : List Attr) : GoError :=
  GoError.wrappedMulti p (wrappedMulti.mk msg errs attrs)

/-- The struct `attributed` of `serr_test.go`. -/
structure attributed where
  id : uuid.UUID
deriving DecidableEq, Repr

/-- The method `(*attributed).Attributes` of `serr_test.go`. -/
def attributed.Attributes (a : attributed) : List Attr :=
  [UUID "id" a.id, Int "num" 1234]

/-- The equality `==` of two non-nil values of interface type `error`: the
dynamic types agree and the values are equal (pointers by address, the struct
`uuid.invalidLengthError` by its field). -/
def GoError.same : GoError → GoError → Bool
  | .errorString p _, .errorString q _ => p == q
  | .invalidLengthError a, .invalidLengthError b => a == b
  | .SyntaxError p _ _, .SyntaxError q _ _ => p == q
  | .serror p _, .serror q _ => p == q
  | .wrapped p _, .wrapped q _ => p == q
  | .wrappedMulti p _, .wrappedMulti q _ => p == q
  | _, _ => false

end serr

namespace slog

/-- A logging field `slog.Attr`, by the function of `log/slog` that builds it:
`slog.String`, `slog.Int`, `slog.Time`, `slog.Any`. -/
inductive Attr where
  | String (key : string) (value : string)
  | Int (key : string) (value : int)
  | Time (key : string) (value : time.Time)
  | Any (key : string) (value : serr.Value)

/-- Field `Key` of `slog.Attr`. -/
def Attr.Key : Attr → string
  | .String key _ => key
  | .Int key _ => key
  | .Time key _ => key
  | .Any key _ => key

end slog

namespace serr

/-- The loop of `attrsToSlog` from the state `attrs`: a type switch on the
value of each attribute; `val.Error()` is a plain call and panics when the
method does. -/
def attrsToSlog.loop (attrs : List slog.Attr) : List Attr → Option (List slog.Attr)
  | [] => some attrs
  | attr :: rest =>
    match attr.value with
    | .str val => attrsToSlog.loop (attrs ++ [slog.Attr.String attr.key val]) rest
    | .int val => attrsToSlog.loop (attrs ++ [slog.Attr.Int attr.key val]) rest
    | .uuid val => attrsToSlog.loop (attrs ++ [slog.Attr.String attr.key val.String]) rest
    | .time val => attrsToSlog.loop (attrs ++ [slog.Attr.Time attr.key val]) rest
    | .err val =>
      match val.Error with
      | none => none
      | some t => attrsToSlog.loop (attrs ++ [slog.Attr.String attr.key t]) rest
    | val => attrsToSlog.loop (attrs ++ [slog.Attr.Any attr.key val]) rest

/-- The function `attrsToSlog`. -/
def attrsToSlog (errAttrs : List Attr) : Option (List slog.Attr) :=
  attrsToSlog.loop [] errAttrs

end serr

namespace errors

open serr

/-- The function `errors.New`; `p` is the address of the allocated value. -/
def New (p : Nat) (text : string) : GoError := GoError.errorString p text

mutual

/-- The function `is` of the package `errors`, for a comparable target: the
error itself is compared with the target; otherwise a type with
`Unwrap() error` is followed to its cause (false when the cause is nil), a type
with `Unwrap() []error` is searched cause by cause, any other type gives false.
No type of the model has an `Is` method. -/
def is : GoError → GoError → Bool
  | .wrapped p (.mk msg err attrs), target =>
    if (GoError.wrapped p (.mk msg err attrs)).same target then true
    else isErr err target
  | .wrappedMulti p (.mk msg errs attrs), target =>
    if (GoError.wrappedMulti p (.mk msg errs attrs)).same target then true
    else isRange errs target
  | err, target => err.same target

/-- The function `is` on a value that may be nil; nil equals no non-nil target
and has no `Unwrap` method. -/
def isErr : Option GoError → GoError → Bool
  | none, _ => false
  | some err, target => is err target

/-- The loop `for _, err := range x.Unwrap()` of `is`. -/
def isRange : List (Option GoError) → GoError → Bool
  | [], _ => false
  | err :: rest, target => if isErr err target then true else isRange rest target

end

/-- The function `errors.Is`. -/
def Is : error → error → Bool
  | some err, some target => is err target
  | none, none => true
  | _, _ => false

end errors

namespace serr

/-- The method `Unwrap() error` of an error value: only the dynamic type
`*wrapped` has it. -/
def GoError.Unwrap : GoError → Option error
  | .wrapped _ se => some se.Unwrap
  | _ => none

/-- The method `Unwrap() []error` of an error value: only the dynamic type
`*wrappedMulti` has it. -/
def GoError.UnwrapMulti : GoError → Option (List error)
  | .wrappedMulti _ se => some se.Unwrap
  | _ => none

/-- The rendered attributes of the flat string form: for each attribute in
order, a space, the key, `=` and the value in default formatting. -/
def renderAttrs (attrs : List Attr) : string :=
  String.join (attrs.map (fun a => " " ++ a.key ++ "=" ++ fmtV a.value))

/-- The logging field of one attribute, by the kind of its value; `none` when
the attribute holds an error whose `Error()` panics. -/
def slogField (a : Attr) : Option slog.Attr :=
  match a.value with
  | .str s => some (slog.Attr.String a.key s)
  | .int n => some (slog.Attr.Int a.key n)
  | .uuid u => some (slog.Attr.String a.key u.String)
  | .time t => some (slog.Attr.Time a.key t)
  | .err e => (e.Error).map (slog.Attr.String a.key)
  | v => some (slog.Attr.Any a.key v)

mutual

/-- The causes below an error in its cause tree, depth first: the cause of a
single wrap and what is below it, the causes of a multi wrap in list order, each
followed by what is below it. -/
def causesBelow : GoError → List GoError
  | .wrapped _ (.mk _ err _) => causesOf err
  | .wrappedMulti _ (.mk _ errs _) => causesOfList errs
  | _ => []

/-- The cause tree of a cause that may be nil. -/
def causesOf : Option GoError → List GoError
  | none => []
  | some e => e :: causesBelow e

/-- The cause trees of a list of causes, in order. -/
def causesOfList : List (Option GoError) → List GoError
  | [] => []
  | err :: rest => causesOf err ++ causesOfList rest

end

/-- The cause tree of an error, depth first: the error itself, then the causes
below it. -/
def causeTree (e : GoError) : List GoError := e :: causesBelow e

/-- One step down the cause tree: `c` is the non-nil cause `e.Unwrap()` returns,
or one of the non-nil causes `e.Unwrap()` returns for a multi wrap. -/
def directCause (e c : GoError) : Prop :=
  e.Unwrap = some (some c) ∨ ∃ cs, e.UnwrapMulti = some cs ∧ some c ∈ cs

/-- The node `n` occurs in the cause tree of `e`: it is `e` or is reached from
`e` by steps of `Unwrap`. -/
inductive InChain : GoError → GoError → Prop where
  | self (e : GoError) : InChain e e
  | step (e c n : GoError) : directCause e c → InChain c n → InChain e n

end serr

namespace context

/-- A `context.Context`, kept abstract: `Log` hands it on to the logger unchanged. -/
structure Context where
  id : Nat
deriving DecidableEq, Repr

end context

namespace slog

/-- The type `slog.Level`, an integer. -/
abbrev Level := int

/-- The constant `slog.LevelDebug`. -/
def LevelDebug : Level := -4

/-- The constant `slog.LevelInfo`. -/
def LevelInfo : Level := 0

/-- The constant `slog.LevelWarn`. -/
def LevelWarn : Level := 4

/-- The constant `slog.LevelError`. -/
def LevelError : Level := 8

/-- One call `logger.Log(ctx, level, msg, args...)`, as the logger receives it. -/
structure Call where
  ctx : context.Context
  level : Level
  msg : string
  args : List Attr

/-- A `*slog.Logger`, the logging sink, modelled by the calls of `Log` it has
received, oldest first. -/
structure Logger where
  calls : List Call

/-- The method `(*Logger).Log`: the sink receives one more call. -/
def Logger.Log (logger : Logger) (ctx : context.Context) (level : Level) (msg : string)
    (args : List Attr) : Logger :=
  Logger.mk (logger.calls ++ [Call.mk ctx level msg args])

end slog

namespace codes

/-- The type `codes.Code` of google.golang.org/grpc/codes, an unsigned integer. -/
abbrev Code := Nat

/-- The constant `codes.InvalidArgument`. -/
def InvalidArgument : Code := 3

/-- The constant `codes.NotFound`. -/
def NotFound : Code := 5

/-- The constant `codes.Internal`. -/
def Internal : Code := 13

/-- The constant `codes.Unauthenticated`. -/
def Unauthenticated : Code := 16

end codes

namespace status

/-- The error `status.Error(c, msg)` returns for a code `c` other than `OK`,
by the status it carries: the code and the message text. -/
structure Status where
  Code : codes.Code
  Message : string
deriving DecidableEq, Repr

/-- The function `status.Error(c, msg)`, for a code other than `OK`. -/
def Error (c : codes.Code) (msg : string) : Status := Status.mk c msg

end status

namespace sql

/-- The variable `sql.ErrNoRows` of database/sql, an `errors.New` value; 200 is
the address of this package-level value, no other allocation has it. -/
def ErrNoRows : serr.GoError := errors.New 200 "sql: no rows in result set"

end sql

namespace uuid

/-- The function `uuid.IsInvalidLengthError`: a type assertion of the error
itself to `invalidLengthError`. -/
def IsInvalidLengthError : serr.error → Bool
  | some (serr.GoError.invalidLengthError _) => true
  | _ => false

end uuid

namespace errors

open serr

/-- Assignability of the dynamic type of an error to `*json.SyntaxError`, the
type of the target `jsonErr` of `ToGRPC`. -/
def isSyntaxError : GoError → Bool
  | .SyntaxError _ _ _ => true
  | _ => false

mutual

/-- The function `as` of the package `errors`, for the target type
`*json.SyntaxError`: the error itself is tested; otherwise a type with
`Unwrap() error` is followed to its cause (false when the cause is nil), a type
with `Unwrap() []error` is searched cause by cause, any other type gives false.
No type of the model has an `As` method. -/
def as : GoError → Bool
  | .wrapped p (.mk msg err attrs) =>
    if isSyntaxError (GoError.wrapped p (.mk msg err attrs)) then true
    else asErr err
  | .wrappedMulti p (.mk msg errs attrs) =>
    if isSyntaxError (GoError.wrappedMulti p (.mk msg errs attrs)) then true
    else asRange errs
  | err => isSyntaxError err

/-- The function `as` after `err = x.Unwrap()`: a nil cause gives false. -/
def asErr : Option GoError → Bool
  | none => false
  | some err => as err

/-- The loop `for _, err := range x.Unwrap()` of `as`, which skips nil causes. -/
def asRange : List (Option GoError) → Bool
  | [] => false
  | none :: rest => asRange rest
  | some err :: rest => if as err then true else asRange rest

end

/-- The call `errors.As(err, &jsonErr)` with `jsonErr` of type
`*json.SyntaxError`: whether it reports a match (`ToGRPC` does not use the value
stored in the target). -/
def As : error → Bool
  | none => false
  | some err => as err

end errors

namespace serr

/-- The variable `ErrNotPermitted`, an `errors.New` value; 100 is the address of
this package-level value, no other allocation has it. -/
def ErrNotPermitted : GoError := errors.New 100 "not permitted"

/-- The function `ToGRPC`; `msg := err.Error()` panics on a nil error and when
the method does. -/
def ToGRPC (err : error) : Option status.Status :=
  match error.Error err with
  | none => none
  | some msg =>
    if errors.Is err (some ErrNotPermitted) then
      some (status.Error codes.Unauthenticated msg)
    else if errors.Is err (some sql.ErrNoRows) then
      some (status.Error codes.NotFound msg)
    else if uuid.IsInvalidLengthError err then
      some (status.Error codes.InvalidArgument msg)
    else if msg = "invalid UUID format" then
      some (status.Error codes.InvalidArgument msg)
    else if errors.As err then
      some (status.Error codes.InvalidArgument msg)
    else
      some (status.Error codes.Internal msg)

/-- The function `Log`: a type switch on the error; the arguments of
`logger.Log` are evaluated first, and `err.message()`, `attrsToSlog` and
`err.Error()` panic when they do. -/
def Log (ctx : context.Context) (logger : slog.Logger) (level : slog.Level) (err : error) :
    Option slog.Logger :=
  match err with
  | some (.serror _ se) =>
    match attrsToSlog se.attrs with
    | none => none
    | some args => some (logger.Log ctx level se.msg args)
  | some (.wrapped _ se) =>
    match se.message with
    | none => none
    | some msg =>
      match attrsToSlog se.attrs with
      | none => none
      | some args => some (logger.Log ctx level msg args)
  | some (.wrappedMulti _ se) =>
    match se.message with
    | none => none
    | some msg =>
      match attrsToSlog se.attrs with
      | none => none
      | some args => some (logger.Log ctx level msg args)
  | err =>
    match error.Error err with
    | none => none
    | some msg => some (logger.Log ctx level msg [])

/-- The function `LogDebug`. -/
def LogDebug (ctx : context.Context) (logger : slog.Logger) (err : error) :
    Option slog.Logger :=
  Log ctx logger slog.LevelDebug err

/-- The function `LogInfo`. -/
def LogInfo (ctx : context.Context) (logger : slog.Logger) (err : error) :
    Option slog.Logger :=
  Log ctx logger slog.LevelInfo err

/-- The function `LogWarn`. -/
def LogWarn (ctx : context.Context) (logger : slog.Logger) (err : error) :
    Option slog.Logger :=
  Log ctx logger slog.LevelWarn err

/-- The function `LogError`. -/
def LogError (ctx : context.Context) (logger : slog.Logger) (err : error) :
    Option slog.Logger :=
  Log ctx logger slog.LevelError err

/-- A value of one of the kinds `attrsToSlog` knows: string, int, UUID,
`time.Time`, error. -/
def Value.isKnownKind : Value → Bool
  | .str _ => true
  | .int _ => true
  | .uuid _ => true
  | .time _ => true
  | .err _ => true
  | _ => false

/-- The attribute list of a structured error: of one of the three variants of
the package; `none` for any other error. -/
def GoError.attrs : GoError → Option (List Attr)
  | .serror _ se => some se.attrs
  | .wrapped _ se => some se.attrs
  | .wrappedMulti _ se => some se.attrs
  | _ => none

/-- The composed message of a structured error: the bare message of the plain
variant, `message()` of the wrapped variants (which may panic); `none` for any
other error. -/
def GoError.composed : GoError → Option (Option string)
  | .serror _ se => some (some se.msg)
  | .wrapped _ se => some se.message
  | .wrappedMulti _ se => some se.message
  | _ => none

end serr

namespace serr

mutual

/-- No cause in the cause tree of the error is nil: every single wrap holds a
non-nil cause and every element of the causes of a multi wrap is non-nil. -/
def noNilCause : GoError → Bool
  | .wrapped _ (.mk _ err _) => noNilCauseErr err
  | .wrappedMulti _ (.mk _ errs _) => noNilCauseList errs
  | _ => true

/-- The cause is not nil and has no nil cause below it. -/
def noNilCauseErr : Option GoError → Bool
  | none => false
  | some e => noNilCause e

/-- Every cause of the list is non-nil and has no nil cause below it. -/
def noNilCauseList : List (Option GoError) → Bool
  | [] => true
  | err :: rest => noNilCauseErr err && noNilCauseList rest

end

end serr

namespace serr

/-- An argument a caller writes in an attribute position of `New`, `Wrap` or
`WrapMulti`: a value of type `Attr`, or a value with an `Attributes()` method,
the `*attributed` of `serr_test.go`. -/
inductive Arg where
  | attr (a : Attr)
  | attributable (v : attributed)

/-- Assignability of an argument to the parameter type `Attr` of
`attrs ...Attr`: an `Attr` is passed as it is; a `*attributed` is not an `Attr`
and the package declares no interface it could be passed as, so the call does
not type-check (`none`). -/
def Arg.assign : Arg → Option Attr
  | .attr a => some a
  | .attributable _ => none

/-- The slice the variadic parameter `attrs ...Attr` receives for a sequence of
arguments, in order; `none` when an argument is not assignable to `Attr`, in
which case the call is rejected and no error is built. -/
def attrArgs : List Arg → Option (List Attr)
  | [] => some []
  | arg :: rest =>
    match arg.assign with
    | none => none
    | some a =>
      match attrArgs rest with
      | none => none
      | some attrs => some (a :: attrs)

end serr

/-! ## Lemmas on the rendering loops -/

namespace serr

theorem push_eq_append (s : string) (c : Char) : s.push c = s ++ String.singleton c := by
  apply String.ext
  simp [String.singleton]

theorem join_nil : String.join [] = "" := rfl

theorem join_cons (a : string) (l : List string) :
    String.join (a :: l) = a ++ String.join l := by
  apply String.ext
  simp [String.join_eq]

theorem renderAttrs_nil : renderAttrs [] = "" := rfl

theorem renderAttrs_cons (a : Attr) (rest : List Attr) :
    renderAttrs (a :: rest) = " " ++ a.key ++ "=" ++ fmtV a.value ++ renderAttrs rest := by
  simp [renderAttrs, join_cons]

theorem writeAttr_eq (sb : strings.Builder) (a : Attr) :
    writeAttr sb a = sb ++ (" " ++ a.key ++ "=" ++ fmtV a.value) := by
  cases a with
  | mk key value =>
    simp only [writeAttr, strings.Builder.WriteByte, strings.Builder.WriteString, Attr.key,
      Attr.value, push_eq_append]
    apply String.ext
    simp [String.singleton]

theorem writeAttrs_eq (sb : strings.Builder) (attrs : List Attr) :
    writeAttrs sb attrs = sb ++ renderAttrs attrs := by
  induction attrs generalizing sb with
  | nil => simp [writeAttrs, renderAttrs_nil]
  | cons a rest ih =>
    rw [writeAttrs, ih, writeAttr_eq, renderAttrs_cons]
    simp [String.append_assoc]

theorem Error_serror (p : Nat) (se : serror) :
    (GoError.serror p se).Error = some se.Error := by
  cases se; rfl

theorem Error_wrapped (p : Nat) (se : wrapped) :
    (GoError.wrapped p se).Error = se.Error := by
  cases se; rfl

theorem Error_wrappedMulti (p : Nat) (se : wrappedMulti) :
    (GoError.wrappedMulti p se).Error = se.Error := by
  cases se; rfl

theorem serror_Error_eq (se : serror) : se.Error = se.msg ++ renderAttrs se.attrs := by
  simp [serror.Error, strings.Builder.WriteString, strings.Builder.String, writeAttrs_eq]

theorem wrapped_Error_eq (se : wrapped) :
    se.Error = se.message.map (fun m => m ++ renderAttrs se.attrs) := by
  unfold wrapped.Error
  cases se.message <;>
    simp [strings.Builder.WriteString, strings.Builder.String, writeAttrs_eq]

theorem wrappedMulti_Error_eq (se : wrappedMulti) :
    se.Error = se.message.map (fun m => m ++ renderAttrs se.attrs) := by
  unfold wrappedMulti.Error
  cases se.message <;>
    simp [strings.Builder.WriteString, strings.Builder.String, writeAttrs_eq]

theorem intercalate_go (sep acc : string) (l : List string) :
    String.intercalate.go acc sep l = acc ++ String.join (l.map (fun a => sep ++ a)) := by
  induction l generalizing acc with
  | nil => simp [String.intercalate.go, join_nil]
  | cons a rest ih => simp [String.intercalate.go, ih, join_cons, String.append_assoc]

theorem Join_eq_intercalate (l : List string) (sep : string) :
    strings.Join l sep = sep.intercalate l := by
  induction l with
  | nil => rfl
  | cons a rest ih =>
    cases rest with
    | nil => simp [strings.Join, String.intercalate, String.intercalate.go]
    | cons b rest2 =>
      rw [strings.Join, ih]
      simp [String.intercalate, intercalate_go, String.intercalate.go, String.append_assoc]

theorem collectTexts_eq (sfx ts : List string) (cs : List GoError)
    (h : cs.map GoError.Error = ts.map some) :
    collectTexts sfx (cs.map some) = some (sfx ++ ts) := by
  induction cs generalizing sfx ts with
  | nil =>
    cases ts with
    | nil => simp [collectTexts]
    | cons t ts => simp at h
  | cons c rest ih =>
    cases ts with
    | nil => simp at h
    | cons t ts =>
      simp only [List.map_cons, List.cons.injEq] at h
      simp only [List.map_cons, collectTexts, error.Error, h.1]
      rw [ih _ _ h.2]
      simp

/-! ## The flat string form -/

/-- C1: for every message `M` and attribute list `A`, `New(M, A...).Error()`
returns `M` followed, for each attribute of `A` in order, by a space, the key,
`=` and the value under `%v`; with an empty `A` it returns `M`. -/
theorem C1_New_Error (p : Nat) (M : string) (A : List Attr) :
    (New p M A).Error = some (M ++ renderAttrs A) ∧ (New p M []).Error = some M := by
  constructor
  · rw [New, Error_serror, serror_Error_eq]
    rfl
  · rw [New, Error_serror, serror_Error_eq]
    simp [serror.msg, serror.attrs, renderAttrs_nil]

/-- C2: for every non-empty message `M`, non-nil cause and attribute list `A`,
`Wrap(M, cause, A...).Error()` is `M + ": " + cause.Error()` followed by the
rendered attributes of `A`: it returns that text when `cause.Error()` returns,
and panics exactly when `cause.Error()` does. -/
theorem C2_Wrap_Error (p : Nat) (M : string) (cause : GoError) (A : List Attr)
    (hM : M ≠ "") :
    (Wrap p M (some cause) A).Error =
      cause.Error.map (fun t => M ++ ": " ++ t ++ renderAttrs A) := by
  rw [Wrap, Error_wrapped, wrapped_Error_eq]
  simp only [wrapped.message, wrapped.msg, wrapped.err, wrapped.attrs, hM, if_false,
    error.Error]
  cases cause.Error <;> simp

/-- Witness of C2 on the case of `TestWrappedErrors`, "message & wrapped error". -/
theorem C2_Wrap_Error_witness :
    ("msg" : string) ≠ "" ∧
    (Wrap 1 "msg" (some (errors.New 2 "malheur")) [String "a" "1", String "b" "2"]).Error =
      some "msg: malheur a=1 b=2" :=
  ⟨by decide,
   (C2_Wrap_Error 1 "msg" (errors.New 2 "malheur") [String "a" "1", String "b" "2"]
    (by decide)).trans (by decide)⟩

/-- C3: for every non-nil cause and attribute list `A`,
`Wrap("", cause, A...).Error()` is `cause.Error()` followed by the rendered
attributes of `A`, with no `": "` separator: it returns that text when
`cause.Error()` returns, and panics exactly when `cause.Error()` does. -/
theorem C3_Wrap_empty_message (p : Nat) (cause : GoError) (A : List Attr) :
    (Wrap p "" (some cause) A).Error = cause.Error.map (fun t => t ++ renderAttrs A) := by
  rw [Wrap, Error_wrapped, wrapped_Error_eq]
  simp only [wrapped.message, wrapped.msg, wrapped.err, wrapped.attrs, if_true, error.Error]

/-- C4: for every message `M`, list of non-nil causes whose `Error()` texts are
`ts`, and attribute list `A`, `WrapMulti(M, causes, A...).Error()` returns the
composed message followed by the rendered attributes of `A`, where the composed
message is the texts `ts` joined with `/` in list order, after `M + ": "` when
`M` is non-empty and after nothing when `M` is empty. -/
theorem C4_WrapMulti_Error (p : Nat) (M : string) (causes : List GoError)
    (ts : List string) (A : List Attr)
    (hts : causes.map GoError.Error = ts.map some) :
    (WrapMulti p M (causes.map some) A).Error =
      some ((if M = "" then "" else M ++ ": ") ++ "/".intercalate ts ++ renderAttrs A) := by
  rw [WrapMulti, Error_wrappedMulti, wrappedMulti_Error_eq]
  simp only [wrappedMulti.message, wrappedMulti.msg, wrappedMulti.errs, wrappedMulti.attrs,
    collectTexts_eq [] ts causes hts, List.nil_append, Join_eq_intercalate]
  by_cases hM : M = "" <;> simp [hM]

/-- Witness of C4 on the case of `TestWrappedErrors`, "message & wrapped errors". -/
theorem C4_WrapMulti_Error_witness :
    [errors.New 2 "malheur", errors.New 3 "catastrophe"].map GoError.Error =
      ["malheur", "catastrophe"].map some ∧
    (WrapMulti 1 "msg" [some (errors.New 2 "malheur"), some (errors.New 3 "catastrophe")]
      [String "a" "1", String "b" "2"]).Error = some "msg: malheur/catastrophe a=1 b=2" :=
  ⟨by decide,
   (C4_WrapMulti_Error 1 "msg" [errors.New 2 "malheur", errors.New 3 "catastrophe"]
    ["malheur", "catastrophe"] [String "a" "1", String "b" "2"] (by decide)).trans (by decide)⟩

/-! ## Attributable values -/

theorem renderAttrs_append (A B : List Attr) :
    renderAttrs (A ++ B) = renderAttrs A ++ renderAttrs B := by
  induction A with
  | nil => simp [renderAttrs_nil]
  | cons a rest ih => simp [renderAttrs_cons, ih, String.append_assoc]

theorem attrArgs_attrs (A : List Attr) : attrArgs (A.map Arg.attr) = some A := by
  induction A with
  | nil => rfl
  | cons a rest ih => simp [attrArgs, Arg.assign, ih]

theorem attrArgs_none_iff (args : List Arg) :
    attrArgs args = none ↔ ∃ v, Arg.attributable v ∈ args := by
  induction args with
  | nil => simp [attrArgs]
  | cons arg rest ih =>
    cases arg with
    | attr a =>
      cases h : attrArgs rest with
      | none => simpa [attrArgs, Arg.assign, h] using ih.mp h
      | some attrs =>
        have hno : ¬ ∃ v, Arg.attributable v ∈ rest := fun hex => by
          have := ih.mpr hex
          rw [h] at this
          exact absurd this (by simp)
        simpa [attrArgs, Arg.assign, h] using hno
    | attributable v =>
      simp only [attrArgs, Arg.assign, true_iff]
      exact ⟨v, List.mem_cons_self _ _⟩

/-- C5, counterexample: the call of the claim and of `TestAttributed`,
`New("dummy error", String("attr", "abcd"), v)` with `v` a `*attributed`, is not
accepted by `attrs ...Attr`: no slice of attributes is passed, no error is
built, and so no error with the text
`dummy error attr=abcd id=X num=1234` comes out of it. -/
theorem C5_counterexample :
    attrArgs [Arg.attr (String "attr" "abcd"),
      Arg.attributable ⟨⟨"00000000-0000-0000-0000-000000000000"⟩⟩] = none ∧
    ((attrArgs [Arg.attr (String "attr" "abcd"),
      Arg.attributable ⟨⟨"00000000-0000-0000-0000-000000000000"⟩⟩]).map
        (New 1 "dummy error")).bind GoError.Error ≠
      some "dummy error attr=abcd id=00000000-0000-0000-0000-000000000000 num=1234" := by
  constructor
  · rfl
  · decide

/-- C5, amended: the attribute arguments of `New`, `Wrap` and `WrapMulti` are of
type `Attr` only: a sequence of arguments is accepted exactly when none of them
is an Attributable value, and the accepted attributes are stored as given. The
attributes of an Attributable `v` appear at a position, verbatim and in order,
when the caller passes the list `v.Attributes()` there: the text of `New` is
then the message, the attributes before, those of `v`, and the attributes after;
`Wrap` and `WrapMulti` compose their message and render the same list. So
`New("dummy error", String("attr", "abcd"), v.Attributes()...)` with
`v.Attributes() = [UUID("id", X), Int("num", 1234)]` has the text
`dummy error attr=abcd id=X num=1234`. -/
theorem C5_attributes_kept_verbatim (p : Nat) (M : string) (c : GoError)
    (cs : List GoError) (args : List Arg) (before after : List Attr) (v : attributed) :
    (attrArgs args = none ↔ ∃ w, Arg.attributable w ∈ args) ∧
    attrArgs (before.map Arg.attr) = some before ∧
    v.Attributes = [UUID "id" v.id, Int "num" 1234] ∧
    (New p M (before ++ v.Attributes ++ after)).Error =
      some (M ++ renderAttrs before ++ renderAttrs v.Attributes ++ renderAttrs after) ∧
    (Wrap p M (some c) (before ++ v.Attributes ++ after)).Error =
      (wrapped.mk M (some c) []).message.map (fun m =>
        m ++ renderAttrs before ++ renderAttrs v.Attributes ++ renderAttrs after) ∧
    (WrapMulti p M (cs.map some) (before ++ v.Attributes ++ after)).Error =
      (wrappedMulti.mk M (cs.map some) []).message.map (fun m =>
        m ++ renderAttrs before ++ renderAttrs v.Attributes ++ renderAttrs after) ∧
    (New p "dummy error" (String "attr" "abcd" :: v.Attributes)).Error =
      some ("dummy error attr=abcd id=" ++ v.id.String ++ " num=1234") := by
  refine ⟨attrArgs_none_iff args, attrArgs_attrs before, rfl, ?_, ?_, ?_, ?_⟩
  · rw [New, Error_serror, serror_Error_eq]
    simp [serror.msg, serror.attrs, renderAttrs_append, String.append_assoc]
  · rw [Wrap, Error_wrapped, wrapped_Error_eq]
    simp only [wrapped.message, wrapped.msg, wrapped.err, wrapped.attrs, renderAttrs_append,
      String.append_assoc]
  · rw [WrapMulti, Error_wrappedMulti, wrappedMulti_Error_eq]
    simp only [wrappedMulti.message, wrappedMulti.msg, wrappedMulti.errs,
      wrappedMulti.attrs, renderAttrs_append, String.append_assoc]
  · rw [New, Error_serror, serror_Error_eq]
    have h1234 : toString (1234 : int) = "1234" := by decide
    have hsplit : ("dummy error attr=abcd id=" : string) =
        "dummy error" ++ (" attr=abcd" ++ " id=") := by decide
    simp only [serror.msg, serror.attrs, attributed.Attributes, renderAttrs_cons,
      renderAttrs_nil, String, UUID, Int, Attr.key, Attr.value, fmtV, h1234, hsplit,
      String.append_assoc, String.append_empty, Option.some.injEq]
    apply String.ext
    simp [String.data_append]

/-! ## Chain traversal -/

mutual

theorem is_eq_any : ∀ (err s : GoError),
    errors.is err s = (causeTree err).any (fun n => n.same s)
  | .errorString p t, s => by simp [errors.is, causeTree, causesBelow]
  | .invalidLengthError len, s => by simp [errors.is, causeTree, causesBelow]
  | .SyntaxError p m o, s => by simp [errors.is, causeTree, causesBelow]
  | .serror p se, s => by simp [errors.is, causeTree, causesBelow]
  | .wrapped p (.mk msg err attrs), s => by
    have ih := isErr_eq_any err s
    simp only [errors.is, causeTree, causesBelow, List.any_cons, ih]
    cases (GoError.wrapped p (.mk msg err attrs)).same s <;> simp
  | .wrappedMulti p (.mk msg errs attrs), s => by
    have ih := isRange_eq_any errs s
    simp only [errors.is, causeTree, causesBelow, List.any_cons, ih]
    cases (GoError.wrappedMulti p (.mk msg errs attrs)).same s <;> simp

theorem isErr_eq_any : ∀ (err : Option GoError) (s : GoError),
    errors.isErr err s = (causesOf err).any (fun n => n.same s)
  | none, s => by simp [errors.isErr, causesOf]
  | some e, s => by
    have ih := is_eq_any e s
    simp only [errors.isErr, causesOf, ih, causeTree]

theorem isRange_eq_any : ∀ (errs : List (Option GoError)) (s : GoError),
    errors.isRange errs s = (causesOfList errs).any (fun n => n.same s)
  | [], s => by simp [errors.isRange, causesOfList]
  | err :: rest, s => by
    have ih1 := isErr_eq_any err s
    have ih2 := isRange_eq_any rest s
    simp only [errors.isRange, causesOfList, List.any_append, ih1, ih2]
    cases (causesOf err).any (fun n => n.same s) <;> simp

end

theorem same_refl (e : GoError) : e.same e = true := by
  cases e <;> simp [GoError.same]

mutual

theorem mem_causesBelow : ∀ (e n : GoError), n ∈ causesBelow e →
    ∃ c, directCause e c ∧ InChain c n
  | .errorString _ _, n, h => by simp [causesBelow] at h
  | .invalidLengthError _, n, h => by simp [causesBelow] at h
  | .SyntaxError _ _ _, n, h => by simp [causesBelow] at h
  | .serror _ _, n, h => by simp [causesBelow] at h
  | .wrapped p (.mk msg err attrs), n, h => by
    simp only [causesBelow] at h
    obtain ⟨c, hc, hn⟩ := mem_causesOf err n h
    exact ⟨c, Or.inl (by simp [GoError.Unwrap, wrapped.Unwrap, wrapped.err, hc]), hn⟩
  | .wrappedMulti p (.mk msg errs attrs), n, h => by
    simp only [causesBelow] at h
    obtain ⟨c, hc, hn⟩ := mem_causesOfList errs n h
    exact ⟨c, Or.inr ⟨errs, by simp [GoError.UnwrapMulti, wrappedMulti.Unwrap,
      wrappedMulti.errs], hc⟩, hn⟩

theorem mem_causesOf : ∀ (o : Option GoError) (n : GoError), n ∈ causesOf o →
    ∃ c, o = some c ∧ InChain c n
  | none, n, h => by simp [causesOf] at h
  | some c, n, h => by
    simp only [causesOf, List.mem_cons] at h
    rcases h with rfl | h
    · exact ⟨n, rfl, InChain.self n⟩
    · obtain ⟨d, hd, hn⟩ := mem_causesBelow c n h
      exact ⟨c, rfl, InChain.step c d n hd hn⟩

theorem mem_causesOfList : ∀ (l : List (Option GoError)) (n : GoError),
    n ∈ causesOfList l → ∃ c, some c ∈ l ∧ InChain c n
  | [], n, h => by simp [causesOfList] at h
  | o :: rest, n, h => by
    simp only [causesOfList, List.mem_append] at h
    rcases h with h | h
    · obtain ⟨c, hc, hn⟩ := mem_causesOf o n h
      exact ⟨c, by simp [hc], hn⟩
    · obtain ⟨c, hc, hn⟩ := mem_causesOfList rest n h
      exact ⟨c, List.mem_cons_of_mem _ hc, hn⟩

end

theorem causeTree_sub_causesOfList (l : List (Option GoError)) (c n : GoError)
    (hc : some c ∈ l) (hn : n ∈ causeTree c) : n ∈ causesOfList l := by
  induction l with
  | nil => simp at hc
  | cons o rest ih =>
    simp only [causesOfList, List.mem_append]
    rcases List.mem_cons.mp hc with h | h
    · left
      rw [← h]
      simpa [causesOf, causeTree] using hn
    · exact Or.inr (ih h)

theorem causeTree_of_directCause (e c n : GoError) (hd : directCause e c)
    (hn : n ∈ causeTree c) : n ∈ causesBelow e := by
  rcases hd with h | ⟨cs, h, hc⟩
  · cases e with
    | wrapped p se =>
      cases se with
      | mk msg err attrs =>
        simp only [GoError.Unwrap, wrapped.Unwrap, wrapped.err, Option.some.injEq] at h
        subst h
        simpa [causesBelow, causesOf, causeTree] using hn
    | _ => simp [GoError.Unwrap] at h
  · cases e with
    | wrappedMulti p se =>
      cases se with
      | mk msg errs attrs =>
        simp only [GoError.UnwrapMulti, wrappedMulti.Unwrap, wrappedMulti.errs,
          Option.some.injEq] at h
        subst h
        simp only [causesBelow]
        exact causeTree_sub_causesOfList _ c n hc hn
    | _ => simp [GoError.UnwrapMulti] at h

theorem mem_causeTree_iff (e n : GoError) : n ∈ causeTree e ↔ InChain e n := by
  constructor
  · intro h
    simp only [causeTree, List.mem_cons] at h
    rcases h with rfl | h
    · exact InChain.self n
    · obtain ⟨c, hc, hn⟩ := mem_causesBelow e n h
      exact InChain.step e c n hc hn
  · intro h
    induction h with
    | self e => simp [causeTree]
    | step e c n hd _ ih =>
      exact List.mem_cons_of_mem _ (causeTree_of_directCause e c n hd ih)

/-- C6: for every error `err` (any nesting of single and multi wraps over leaf
errors) and every sentinel `s`, `errors.Is(err, s)` is true exactly when some
node of the cause tree of `err`, reached through `Unwrap` of both kinds of wrap,
is `==` to `s`; so it is true when `s` occurs in the tree and false when no node
of the tree is `s`. In particular `errors.Is(Wrap("", s, attrs...), s)` is true. -/
theorem C6_Is_finds_sentinel (err s : GoError) :
    (errors.Is (some err) (some s) = true ↔ ∃ n, InChain err n ∧ n.same s = true) ∧
    (InChain err s → errors.Is (some err) (some s) = true) ∧
    ((∀ n, InChain err n → n.same s = false) → errors.Is (some err) (some s) = false) ∧
    (∀ (p : Nat) (A : List Attr), errors.Is (some (Wrap p "" (some s) A)) (some s) = true) := by
  have main : errors.Is (some err) (some s) = true ↔
      ∃ n, InChain err n ∧ n.same s = true := by
    simp only [errors.Is, is_eq_any, List.any_eq_true, mem_causeTree_iff]
  refine ⟨main, ?_, ?_, ?_⟩
  · intro hs
    exact main.mpr ⟨s, hs, same_refl s⟩
  · intro hn
    cases hIs : errors.Is (some err) (some s) with
    | false => rfl
    | true =>
      obtain ⟨n, hmem, hsame⟩ := main.mp hIs
      rw [hn n hmem] at hsame
      exact absurd hsame (by decide)
  · intro p A
    simp only [errors.Is, is_eq_any, List.any_eq_true]
    exact ⟨s, by simp [causeTree, Wrap, causesBelow, causesOf], same_refl s⟩

/-- Witness of C6 on the case of `TestWrappedErrors`, "error unwrapping", and on
a sentinel below a single wrap inside a multi wrap. -/
theorem C6_Is_finds_sentinel_witness :
    errors.Is (some (Wrap 1 "" (some (errors.New 2 "some error"))
      [String "a" "1", String "b" "2"])) (some (errors.New 2 "some error")) = true ∧
    errors.Is (some (WrapMulti 1 "m" [some (errors.New 3 "x"),
      some (Wrap 4 "w" (some (errors.New 2 "some error")) [])] []))
      (some (errors.New 2 "some error")) = true :=
  ⟨(C6_Is_finds_sentinel (errors.New 2 "some error") (errors.New 2 "some error")).2.2.2 1
      [String "a" "1", String "b" "2"],
   (C6_Is_finds_sentinel (WrapMulti 1 "m" [some (errors.New 3 "x"),
      some (Wrap 4 "w" (some (errors.New 2 "some error")) [])] [])
      (errors.New 2 "some error")).2.1
      ((mem_causeTree_iff _ _).mp
        (by simp [causeTree, causesBelow, causesOfList, causesOf, WrapMulti, Wrap,
          errors.New]))⟩

/-- C7: `Unwrap` exposes the original causes unchanged: for every message `M`,
cause `c` and attributes `A`, `Unwrap` of `Wrap(M, c, A...)` is `c`; for every
list of causes `cs`, `Unwrap` of `WrapMulti(M, cs, A...)` is `cs`, the same
elements in the same order. -/
theorem C7_Unwrap_exposes_causes (p : Nat) (M : string) (c : error) (cs : List error)
    (A : List Attr) :
    (Wrap p M c A).Unwrap = some c ∧ (WrapMulti p M cs A).UnwrapMulti = some cs :=
  ⟨rfl, rfl⟩

/-! ## Construction -/

/-- C8, counterexample: `Wrap("msg", nil)` returns an error value, a `*wrapped`
holding the nil cause, which `errors.Is` traverses; construction does not fail. -/
theorem C8_counterexample :
    Wrap 1 "msg" none [] = GoError.wrapped 1 (wrapped.mk "msg" none []) ∧
    (Wrap 1 "msg" none []).Unwrap = some none ∧
    errors.Is (some (Wrap 1 "msg" none [])) (some (Wrap 1 "msg" none [])) = true := by
  refine ⟨rfl, rfl, ?_⟩
  decide

/-- C8, amended: `Wrap(message, nil, attrs...)` performs no check: for every
message and attribute list it returns a `*wrapped` value whose `Unwrap()` is
nil; the nil cause fails only when the value is rendered, where `message()` and
`Error()` panic. -/
theorem C8_Wrap_nil_cause (p : Nat) (M : string) (A : List Attr) :
    Wrap p M none A = GoError.wrapped p (wrapped.mk M none A) ∧
    (Wrap p M none A).Unwrap = some none ∧
    (wrapped.mk M none A).message = none ∧
    (Wrap p M none A).Error = none := by
  have hm : (wrapped.mk M none A).message = none := by
    simp only [wrapped.message, wrapped.err, error.Error]
    split <;> rfl
  refine ⟨rfl, rfl, hm, ?_⟩
  rw [Wrap, Error_wrapped, wrapped_Error_eq, hm]
  rfl

/-- C9, counterexample: `WrapMulti("msg", [])` returns an error value whose
`Unwrap()` is the empty list and whose `Error()` returns `msg: `. -/
theorem C9_counterexample :
    (WrapMulti 1 "msg" [] []).UnwrapMulti = some [] ∧
    (WrapMulti 1 "msg" [] []).Error = some "msg: " := by
  refine ⟨rfl, ?_⟩
  decide

/-- C9, amended: `WrapMulti` never fails at construction, whatever the list of
causes: it returns a `*wrappedMulti` value whose `Unwrap()` is that list. With an
empty list the value renders without failure: `Error()` returns `M + ": "`
(nothing when `M` is empty) followed by the rendered attributes. -/
theorem C9_WrapMulti_total (p : Nat) (M : string) (cs : List error) (A : List Attr) :
    WrapMulti p M cs A = GoError.wrappedMulti p (wrappedMulti.mk M cs A) ∧
    (WrapMulti p M cs A).UnwrapMulti = some cs ∧
    (WrapMulti p M [] A).Error =
      some ((if M = "" then "" else M ++ ": ") ++ renderAttrs A) := by
  refine ⟨rfl, rfl, ?_⟩
  rw [WrapMulti, Error_wrappedMulti, wrappedMulti_Error_eq]
  simp only [wrappedMulti.message, wrappedMulti.msg, wrappedMulti.errs, wrappedMulti.attrs,
    collectTexts, strings.Join]
  by_cases hM : M = "" <;> simp [hM]

/-! ## Structured fields -/

theorem slogField_key (a : Attr) (f : slog.Attr) (h : slogField a = some f) :
    f.Key = a.key := by
  unfold slogField at h
  split at h
  all_goals first
    | (simp only [Option.some.injEq] at h; subst h; rfl)
    | (simp only [Option.map_eq_some'] at h
       obtain ⟨t, _, rfl⟩ := h
       rfl)

theorem slogField_none_iff (a : Attr) :
    slogField a = none ↔ ∃ e, a.value = Value.err e ∧ e.Error = none := by
  cases a with
  | mk key value => cases value <;> simp [slogField, Attr.value]

theorem attrsToSlog_loop_cons (a : Attr) (rest : List Attr) (acc : List slog.Attr) :
    attrsToSlog.loop acc (a :: rest) =
      match slogField a with
      | none => none
      | some f => attrsToSlog.loop (acc ++ [f]) rest := by
  cases a with
  | mk key value =>
    cases value with
    | err e => cases hE : e.Error <;> simp [attrsToSlog.loop, slogField, Attr.value, Attr.key, hE]
    | _ => simp [attrsToSlog.loop, slogField, Attr.value, Attr.key]

theorem attrsToSlog_loop_none_iff (A : List Attr) (acc : List slog.Attr) :
    attrsToSlog.loop acc A = none ↔ ∃ a ∈ A, slogField a = none := by
  induction A generalizing acc with
  | nil => simp [attrsToSlog.loop]
  | cons a rest ih =>
    rw [attrsToSlog_loop_cons]
    cases hf : slogField a with
    | none => simp [hf]
    | some f => simp [hf, ih]

theorem attrsToSlog_loop_some (A : List Attr) (acc out : List slog.Attr)
    (h : attrsToSlog.loop acc A = some out) :
    ∃ fs : List slog.Attr, out = acc ++ fs ∧ A.map slogField = fs.map some := by
  induction A generalizing acc out with
  | nil =>
    simp only [attrsToSlog.loop, Option.some.injEq] at h
    exact ⟨[], by simp [h]⟩
  | cons a rest ih =>
    rw [attrsToSlog_loop_cons] at h
    cases hf : slogField a with
    | none => simp [hf] at h
    | some f =>
      simp only [hf] at h
      obtain ⟨fs, hout, hfs⟩ := ih _ _ h
      exact ⟨f :: fs, by simp [hout], by simp [hf, hfs]⟩

/-- C10: for every attribute list, `attrsToSlog` returns exactly one logging
field per attribute, in the order of the list and with the key of the attribute,
and the shape of the field follows the kind of the value: a string gives a
string field with that string, an int an integer field with that integer, a UUID
a string field with its canonical text, a `time.Time` a time field with that
time, an error a string field with its `Error()` text. The call `val.Error()` is
a plain call: `attrsToSlog` panics exactly when the `Error()` of an error-valued
attribute does, and returns in every other case. -/
theorem C10_attrsToSlog_fields (A : List Attr) :
    (attrsToSlog A = none ↔ ∃ a ∈ A, ∃ e, a.value = Value.err e ∧ e.Error = none) ∧
    ∀ fs : List slog.Attr, attrsToSlog A = some fs →
      fs.length = A.length ∧
      ∀ (i : Nat) (hA : i < A.length) (hf : i < fs.length),
        (fs[i]).Key = (A[i]).key ∧
        (∀ s, (A[i]).value = Value.str s → fs[i] = slog.Attr.String (A[i]).key s) ∧
        (∀ n, (A[i]).value = Value.int n → fs[i] = slog.Attr.Int (A[i]).key n) ∧
        (∀ u, (A[i]).value = Value.uuid u →
          fs[i] = slog.Attr.String (A[i]).key u.String) ∧
        (∀ t, (A[i]).value = Value.time t → fs[i] = slog.Attr.Time (A[i]).key t) ∧
        (∀ e, (A[i]).value = Value.err e →
          e.Error.map (slog.Attr.String (A[i]).key) = some (fs[i])) := by
  constructor
  · rw [attrsToSlog, attrsToSlog_loop_none_iff]
    simp only [slogField_none_iff]
  intro fs hsome
  obtain ⟨fs1, hout, hfs⟩ := attrsToSlog_loop_some A [] fs hsome
  rw [List.nil_append] at hout
  subst hout
  have hlen : fs.length = A.length := by
    have := congrArg List.length hfs
    simpa using this.symm
  refine ⟨hlen, ?_⟩
  intro i hA hf
  have hi : slogField (A[i]) = some (fs[i]) := by
    have h1 : (A.map slogField)[i]? = (fs.map some)[i]? := by rw [hfs]
    simpa [List.getElem?_map, List.getElem?_eq_getElem hA, List.getElem?_eq_getElem hf]
      using h1
  refine ⟨slogField_key _ _ hi, ?_, ?_, ?_, ?_, ?_⟩
  · intro s hs
    simp only [slogField, hs, Option.some.injEq] at hi
    exact hi.symm
  · intro n hn
    simp only [slogField, hn, Option.some.injEq] at hi
    exact hi.symm
  · intro u hu
    simp only [slogField, hu, Option.some.injEq] at hi
    exact hi.symm
  · intro t ht
    simp only [slogField, ht, Option.some.injEq] at hi
    exact hi.symm
  · intro e he
    simp only [slogField, he] at hi
    exact hi

/-- Witness of C10 on a list with a string, an int and an error attribute. -/
theorem C10_attrsToSlog_fields_witness :
    attrsToSlog [String "a" "1", Int "n" 2, Error "cause" (some (errors.New 2 "malheur"))] =
      some [slog.Attr.String "a" "1", slog.Attr.Int "n" 2, slog.Attr.String "cause" "malheur"] ∧
    [slog.Attr.String "a" "1", slog.Attr.Int "n" 2,
      slog.Attr.String "cause" "malheur"].length = 3 :=
  ⟨rfl,
   ((C10_attrsToSlog_fields
      [String "a" "1", Int "n" 2, Error "cause" (some (errors.New 2 "malheur"))]).2
      [slog.Attr.String "a" "1", slog.Attr.Int "n" 2, slog.Attr.String "cause" "malheur"]
      rfl).1⟩

/-! ## Unknown kinds and the logging entry point -/

theorem attrsToSlog_getElem (A : List Attr) (fs : List slog.Attr) (i : Nat)
    (hA : i < A.length) (hf : i < fs.length) (h : attrsToSlog A = some fs) :
    slogField (A[i]) = some (fs[i]) := by
  obtain ⟨fs1, hout, hfs⟩ := attrsToSlog_loop_some A [] fs h
  rw [List.nil_append] at hout
  subst hout
  have h1 : (A.map slogField)[i]? = (fs.map some)[i]? := by rw [hfs]
  simpa [List.getElem?_map, List.getElem?_eq_getElem hA, List.getElem?_eq_getElem hf]
    using h1

theorem slogField_unknown (a : Attr) (h : a.value.isKnownKind = false) :
    slogField a = some (slog.Attr.Any a.key a.value) := by
  cases a with
  | mk key value => cases value <;> simp_all [slogField, Attr.value, Attr.key, Value.isKnownKind]

/-- C11: for every attribute whose value is of none of the known kinds (string,
int, UUID, time, error), both renderings succeed: `attrsToSlog` returns for it
the generic field `slog.Any` with the key of the attribute and the raw value
unchanged, also at its position in a longer list, and the flat string of `New`
renders the value under `%v`, the default formatter. -/
theorem C11_unknown_kind_renders (a : Attr) (h : a.value.isKnownKind = false) :
    attrsToSlog [a] = some [slog.Attr.Any a.key a.value] ∧
    (∀ (A : List Attr) (fs : List slog.Attr) (i : Nat) (hA : i < A.length)
      (hf : i < fs.length), attrsToSlog A = some fs → A[i] = a →
      fs[i] = slog.Attr.Any a.key a.value) ∧
    (∀ (p : Nat) (M : string),
      (New p M [a]).Error = some (M ++ " " ++ a.key ++ "=" ++ fmtV a.value)) := by
  refine ⟨?_, ?_, ?_⟩
  · rw [attrsToSlog, attrsToSlog_loop_cons, slogField_unknown a h]
    rfl
  · intro A fs i hA hf hfs hi
    have := attrsToSlog_getElem A fs i hA hf hfs
    rw [hi, slogField_unknown a h] at this
    exact (Option.some.inj this).symm
  · intro p M
    rw [New, Error_serror, serror_Error_eq]
    simp [serror.msg, serror.attrs, renderAttrs_cons, renderAttrs_nil, String.append_assoc]

/-- Witness of C11 on the attribute of `TestAnyAttributes`, a value of a struct
type. -/
theorem C11_unknown_kind_renders_witness :
    (Any "attr" (Value.other ⟨"serr.custom", "\x7bdata\x7d"⟩)).value.isKnownKind = false ∧
    attrsToSlog [Any "attr" (Value.other ⟨"serr.custom", "\x7bdata\x7d"⟩)] =
      some [slog.Attr.Any "attr" (Value.other ⟨"serr.custom", "\x7bdata\x7d"⟩)] ∧
    (New 1 "msg" [Any "attr" (Value.other ⟨"serr.custom", "\x7bdata\x7d"⟩)]).Error =
      some "msg attr=\x7bdata\x7d" :=
  ⟨rfl,
   (C11_unknown_kind_renders (Any "attr" (Value.other ⟨"serr.custom", "\x7bdata\x7d"⟩)) rfl).1,
   ((C11_unknown_kind_renders (Any "attr" (Value.other ⟨"serr.custom", "\x7bdata\x7d"⟩))
      rfl).2.2 1 "msg").trans (by decide)⟩

theorem Log_structured (ctx : context.Context) (logger : slog.Logger) (L : slog.Level)
    (e : GoError) (A : List Attr) (m : Option string)
    (hA : e.attrs = some A) (hm : e.composed = some m) :
    Log ctx logger L (some e) =
      m.bind (fun msg => (attrsToSlog A).map (fun fs => logger.Log ctx L msg fs)) := by
  cases e with
  | serror p se =>
    simp only [GoError.attrs, GoError.composed, Option.some.injEq] at hA hm
    subst hA hm
    simp only [Log, Option.some_bind]
    cases attrsToSlog se.attrs <;> rfl
  | wrapped p se =>
    simp only [GoError.attrs, GoError.composed, Option.some.injEq] at hA hm
    subst hA hm
    simp only [Log]
    cases se.message with
    | none => rfl
    | some msg => cases attrsToSlog se.attrs <;> rfl
  | wrappedMulti p se =>
    simp only [GoError.attrs, GoError.composed, Option.some.injEq] at hA hm
    subst hA hm
    simp only [Log]
    cases se.message with
    | none => rfl
    | some msg => cases attrsToSlog se.attrs <;> rfl
  | _ => simp [GoError.attrs] at hA

theorem Log_plain (ctx : context.Context) (logger : slog.Logger) (L : slog.Level)
    (e : GoError) (hA : e.attrs = none) :
    Log ctx logger L (some e) = e.Error.map (fun msg => logger.Log ctx L msg []) := by
  cases e with
  | serror p se => simp [GoError.attrs] at hA
  | wrapped p se => simp [GoError.attrs] at hA
  | wrappedMulti p se => simp [GoError.attrs] at hA
  | _ => simp [Log, error.Error, GoError.Error]

theorem composed_isSome_of_attrs (e : GoError) (A : List Attr) (hA : e.attrs = some A) :
    ∃ m, e.composed = some m := by
  cases e <;> simp_all [GoError.attrs, GoError.composed]

/-- C12: for every level `L` and error `e`, `Log` makes exactly one call to the
sink, at level `L` and with the context it was given. For a structured error the
message of the call is the composed message (the bare message for `New`,
`message()` for `Wrap` and `WrapMulti`, without the attribute text) and the
fields are `attrsToSlog` of the attributes of `e`; for any other error the
message is `e.Error()` and there are no fields. `Log` panics only when
`message()` or `attrsToSlog` does. `LogDebug`, `LogInfo`, `LogWarn` and
`LogError` are `Log` at the debug, info, warn and error levels. -/
theorem C12_Log_one_call (ctx : context.Context) (logger : slog.Logger) (L : slog.Level)
    (e : GoError) :
    (∀ logger1, Log ctx logger L (some e) = some logger1 →
      ∃ c : slog.Call, logger1.calls = logger.calls ++ [c] ∧ c.ctx = ctx ∧ c.level = L ∧
        (∀ A, e.attrs = some A →
          e.composed = some (some c.msg) ∧ attrsToSlog A = some c.args) ∧
        (e.attrs = none → e.Error = some c.msg ∧ c.args = [])) ∧
    (Log ctx logger L (some e) = none ↔
      e.composed = some none ∨ ∃ A, e.attrs = some A ∧ attrsToSlog A = none) ∧
    (∀ (p : Nat) (M : string) (A : List Attr),
      Log ctx logger L (some (New p M A)) =
        (attrsToSlog A).map (fun fs => logger.Log ctx L M fs)) ∧
    (∀ (p : Nat) (M : string) (c : error) (A : List Attr),
      Log ctx logger L (some (Wrap p M c A)) =
        (wrapped.mk M c A).message.bind
          (fun msg => (attrsToSlog A).map (fun fs => logger.Log ctx L msg fs))) ∧
    (∀ (p : Nat) (M : string) (cs : List error) (A : List Attr),
      Log ctx logger L (some (WrapMulti p M cs A)) =
        (wrappedMulti.mk M cs A).message.bind
          (fun msg => (attrsToSlog A).map (fun fs => logger.Log ctx L msg fs))) ∧
    LogDebug ctx logger (some e) = Log ctx logger slog.LevelDebug (some e) ∧
    LogInfo ctx logger (some e) = Log ctx logger slog.LevelInfo (some e) ∧
    LogWarn ctx logger (some e) = Log ctx logger slog.LevelWarn (some e) ∧
    LogError ctx logger (some e) = Log ctx logger slog.LevelError (some e) := by
  refine ⟨?_, ?_, ?_, ?_, ?_, rfl, rfl, rfl, rfl⟩
  · intro logger1 hlog
    cases hat : e.attrs with
    | none =>
      rw [Log_plain ctx logger L e hat] at hlog
      cases hE : e.Error with
      | none => simp [hE] at hlog
      | some msg =>
        simp only [hE, Option.map_some', Option.some.injEq] at hlog
        subst hlog
        exact ⟨⟨ctx, L, msg, []⟩, rfl, rfl, rfl, fun A hA => by simp at hA,
          fun _ => ⟨rfl, rfl⟩⟩
    | some A =>
      obtain ⟨m, hm⟩ := composed_isSome_of_attrs e A hat
      rw [Log_structured ctx logger L e A m hat hm] at hlog
      cases m with
      | none => simp at hlog
      | some msg =>
        cases hfs : attrsToSlog A with
        | none => simp [hfs] at hlog
        | some fs =>
          simp only [hfs, Option.some_bind, Option.map_some', Option.some.injEq] at hlog
          subst hlog
          refine ⟨⟨ctx, L, msg, fs⟩, rfl, rfl, rfl, ?_, fun h => by simp at h⟩
          intro B hB
          rw [Option.some.injEq] at hB
          subst hB
          exact ⟨hm, hfs⟩
  · cases hat : e.attrs with
    | none =>
      rw [Log_plain ctx logger L e hat]
      cases e <;> simp_all [GoError.attrs, GoError.composed, GoError.Error]
    | some A =>
      obtain ⟨m, hm⟩ := composed_isSome_of_attrs e A hat
      rw [Log_structured ctx logger L e A m hat hm, hm]
      cases m with
      | none => simp
      | some msg => cases hfs : attrsToSlog A <;> simp [hfs]
  · intro p M A
    exact Log_structured ctx logger L (New p M A) A (some M) rfl rfl
  · intro p M c A
    exact Log_structured ctx logger L (Wrap p M c A) A _ rfl rfl
  · intro p M cs A
    exact Log_structured ctx logger L (WrapMulti p M cs A) A _ rfl rfl

/-- Witness of C12 on the call of `TestAnyAttributes`: `LogError` of
`New("msg", Any("attr", v))` on a fresh logger. -/
theorem C12_Log_one_call_witness :
    LogError ⟨0⟩ ⟨[]⟩ (some (New 1 "msg" [Any "attr" (Value.other ⟨"serr.custom", "\x7bdata\x7d"⟩)])) =
      some ⟨[⟨⟨0⟩, slog.LevelError, "msg",
        [slog.Attr.Any "attr" (Value.other ⟨"serr.custom", "\x7bdata\x7d"⟩)]⟩]⟩ :=
  ((C12_Log_one_call ⟨0⟩ ⟨[]⟩ slog.LevelError
      (New 1 "msg" [Any "attr" (Value.other ⟨"serr.custom", "\x7bdata\x7d"⟩)])).2.2.2.2.2.2.2.2).trans
    rfl

/-! ## Classification -/

theorem Is_eq_true_iff (e s : GoError) :
    errors.Is (some e) (some s) = true ↔ ∃ n, InChain e n ∧ n.same s = true := by
  simp only [errors.Is, is_eq_any, List.any_eq_true, mem_causeTree_iff]

theorem Is_eq_false_iff (e s : GoError) :
    errors.Is (some e) (some s) = false ↔ ∀ n, InChain e n → n.same s = false := by
  rw [← Bool.not_eq_true, Is_eq_true_iff]
  simp

mutual

theorem as_eq_any : ∀ (err : GoError),
    errors.as err = (causeTree err).any errors.isSyntaxError
  | .errorString p t => by simp [errors.as, causeTree, causesBelow]
  | .invalidLengthError len => by simp [errors.as, causeTree, causesBelow]
  | .SyntaxError p m o => by simp [errors.as, causeTree, causesBelow]
  | .serror p se => by simp [errors.as, causeTree, causesBelow]
  | .wrapped p (.mk msg err attrs) => by
    have ih := asErr_eq_any err
    simp [errors.as, causeTree, causesBelow, ih, errors.isSyntaxError]
  | .wrappedMulti p (.mk msg errs attrs) => by
    have ih := asRange_eq_any errs
    simp [errors.as, causeTree, causesBelow, ih, errors.isSyntaxError]

theorem asErr_eq_any : ∀ (err : Option GoError),
    errors.asErr err = (causesOf err).any errors.isSyntaxError
  | none => by simp [errors.asErr, causesOf]
  | some e => by
    have ih := as_eq_any e
    simp only [errors.asErr, causesOf, ih, causeTree]

theorem asRange_eq_any : ∀ (errs : List (Option GoError)),
    errors.asRange errs = (causesOfList errs).any errors.isSyntaxError
  | [] => by simp [errors.asRange, causesOfList]
  | none :: rest => by
    have ih := asRange_eq_any rest
    simp [errors.asRange, causesOfList, causesOf, ih]
  | some e :: rest => by
    have ih1 := as_eq_any e
    have ih2 := asRange_eq_any rest
    simp only [errors.asRange, causesOfList, causesOf, List.any_append, ih1, ih2, causeTree]
    cases (e :: causesBelow e).any errors.isSyntaxError <;> simp

end

theorem As_eq_true_iff (e : GoError) :
    errors.As (some e) = true ↔ ∃ n, InChain e n ∧ errors.isSyntaxError n = true := by
  simp only [errors.As, as_eq_any, List.any_eq_true, mem_causeTree_iff]

theorem As_eq_false_iff (e : GoError) :
    errors.As (some e) = false ↔ ∀ n, InChain e n → errors.isSyntaxError n = false := by
  rw [← Bool.not_eq_true, As_eq_true_iff]
  simp

theorem collectTexts_none_of_prefix (sfx sfx2 : List string) (l : List (Option GoError)) :
    collectTexts sfx l = none ↔ collectTexts sfx2 l = none := by
  induction l generalizing sfx sfx2 with
  | nil => simp [collectTexts]
  | cons o rest ih =>
    simp only [collectTexts]
    cases error.Error o with
    | none => simp
    | some t => exact ih _ _

mutual

theorem Error_none_iff : ∀ (e : GoError), e.Error = none ↔ noNilCause e = false
  | .errorString p t => by simp [GoError.Error, noNilCause]
  | .invalidLengthError len => by simp [GoError.Error, noNilCause]
  | .SyntaxError p m o => by simp [GoError.Error, noNilCause]
  | .serror p (.mk msg attrs) => by simp [GoError.Error, noNilCause]
  | .wrapped p (.mk msg err attrs) => by
    have ih := errError_none_iff err
    simp only [GoError.Error, noNilCause, ← ih]
    cases error.Error err <;> by_cases hm : msg = "" <;> simp [hm]
  | .wrappedMulti p (.mk msg errs attrs) => by
    have ih := collectTexts_none_iff errs
    simp only [GoError.Error, noNilCause, ← ih]
    cases collectTexts [] errs <;> by_cases hm : msg = "" <;> simp [hm]

theorem errError_none_iff : ∀ (o : Option GoError),
    error.Error o = none ↔ noNilCauseErr o = false
  | none => by simp [error.Error, noNilCauseErr]
  | some e => by
    have ih := Error_none_iff e
    simp only [error.Error, noNilCauseErr, ih]

theorem collectTexts_none_iff : ∀ (l : List (Option GoError)),
    collectTexts [] l = none ↔ noNilCauseList l = false
  | [] => by simp [collectTexts, noNilCauseList]
  | o :: rest => by
    have ih1 := errError_none_iff o
    have ih2 := collectTexts_none_iff rest
    simp only [collectTexts, noNilCauseList, Bool.and_eq_false_iff, ← ih1, ← ih2]
    cases hE : error.Error o with
    | none => simp
    | some t =>
      simp only [reduceCtorEq, false_or]
      exact collectTexts_none_of_prefix _ _ rest

end

theorem ToGRPC_eq (e : GoError) :
    ToGRPC (some e) = e.Error.map (fun msg =>
      if errors.Is (some e) (some ErrNotPermitted) then
        status.Error codes.Unauthenticated msg
      else if errors.Is (some e) (some sql.ErrNoRows) then
        status.Error codes.NotFound msg
      else if uuid.IsInvalidLengthError (some e) then
        status.Error codes.InvalidArgument msg
      else if msg = "invalid UUID format" then
        status.Error codes.InvalidArgument msg
      else if errors.As (some e) then
        status.Error codes.InvalidArgument msg
      else
        status.Error codes.Internal msg) := by
  simp only [ToGRPC, error.Error]
  cases e.Error with
  | none => rfl
  | some msg =>
    simp only [Option.map_some']
    split_ifs <;> rfl

/-- C13: for every error whose cause chain, through any nesting of single and
multi wraps, contains the sentinel `ErrNotPermitted`, `ToGRPC` returns the
status `Unauthenticated` with the text of the error, whatever else the chain
contains; it panics only when `err.Error()` does. -/
theorem C13_ToGRPC_not_permitted (e : GoError)
    (h : ∃ n, InChain e n ∧ n.same ErrNotPermitted = true) :
    ToGRPC (some e) = e.Error.map (status.Error codes.Unauthenticated) := by
  rw [ToGRPC_eq, (Is_eq_true_iff e ErrNotPermitted).mpr h]
  simp

/-- Witness of C13 on a multi wrap that holds the no-rows sentinel, a JSON
syntax error and, below a single wrap, `ErrNotPermitted`. -/
theorem C13_ToGRPC_not_permitted_witness :
    ToGRPC (some (WrapMulti 1 "m" [some sql.ErrNoRows, some (GoError.SyntaxError 3 "bad" 0),
      some (Wrap 2 "w" (some ErrNotPermitted) [])] [])) =
      some (status.Error codes.Unauthenticated
        "m: sql: no rows in result set/bad/w: not permitted") :=
  (C13_ToGRPC_not_permitted
    (WrapMulti 1 "m" [some sql.ErrNoRows, some (GoError.SyntaxError 3 "bad" 0),
      some (Wrap 2 "w" (some ErrNotPermitted) [])] [])
    ⟨ErrNotPermitted,
      InChain.step _ (Wrap 2 "w" (some ErrNotPermitted) []) _
        (Or.inr ⟨_, rfl,
          List.mem_cons_of_mem _ (List.mem_cons_of_mem _ (List.mem_cons_self _ _))⟩)
        (InChain.step _ ErrNotPermitted _ (Or.inl rfl) (InChain.self _)),
      rfl⟩).trans (by decide)

/-- C14: for every error whose cause chain contains the sentinel `sql.ErrNoRows`
and does not contain `ErrNotPermitted`, `ToGRPC` returns the status `NotFound`
with the text of the error; it panics only when `err.Error()` does. -/
theorem C14_ToGRPC_no_rows (e : GoError)
    (h1 : ∃ n, InChain e n ∧ n.same sql.ErrNoRows = true)
    (h2 : ∀ n, InChain e n → n.same ErrNotPermitted = false) :
    ToGRPC (some e) = e.Error.map (status.Error codes.NotFound) := by
  rw [ToGRPC_eq, (Is_eq_false_iff e ErrNotPermitted).mpr h2,
    (Is_eq_true_iff e sql.ErrNoRows).mpr h1]
  simp

theorem InChain_Wrap_leaf (p q : Nat) (M t : string) (A : List Attr) (n : GoError)
    (h : InChain (Wrap p M (some (errors.New q t)) A) n) :
    n = Wrap p M (some (errors.New q t)) A ∨ n = errors.New q t := by
  have := (mem_causeTree_iff _ _).mpr h
  simpa [causeTree, causesBelow, causesOf, Wrap, errors.New] using this

/-- Witness of C14 on a single wrap of `sql.ErrNoRows`. -/
theorem C14_ToGRPC_no_rows_witness :
    ToGRPC (some (Wrap 1 "load user" (some sql.ErrNoRows) [String "id" "7"])) =
      some (status.Error codes.NotFound "load user: sql: no rows in result set id=7") :=
  (C14_ToGRPC_no_rows (Wrap 1 "load user" (some sql.ErrNoRows) [String "id" "7"])
    ⟨sql.ErrNoRows, InChain.step _ sql.ErrNoRows _ (Or.inl rfl) (InChain.self _), rfl⟩
    (by
      intro n hn
      rcases InChain_Wrap_leaf 1 200 "load user" "sql: no rows in result set"
        [String "id" "7"] n hn with rfl | rfl <;> rfl)).trans (by decide)

/-- C15: for every error that matches no earlier predicate (its chain contains
neither `ErrNotPermitted` nor `sql.ErrNoRows`) and is shaped as malformed input
(it is an invalid-UUID-length error, or its text is exactly
`invalid UUID format`, or its chain contains a JSON syntax error), `ToGRPC`
returns the status `InvalidArgument` with the text of the error. -/
theorem C15_ToGRPC_invalid_argument (e : GoError)
    (h1 : ∀ n, InChain e n → n.same ErrNotPermitted = false)
    (h2 : ∀ n, InChain e n → n.same sql.ErrNoRows = false)
    (h3 : uuid.IsInvalidLengthError (some e) = true ∨ e.Error = some "invalid UUID format" ∨
      ∃ n, InChain e n ∧ errors.isSyntaxError n = true) :
    ToGRPC (some e) = e.Error.map (status.Error codes.InvalidArgument) := by
  rw [ToGRPC_eq, (Is_eq_false_iff e ErrNotPermitted).mpr h1,
    (Is_eq_false_iff e sql.ErrNoRows).mpr h2]
  cases hE : e.Error with
  | none => rfl
  | some msg =>
    simp only [Option.map_some', Bool.false_eq_true, if_false]
    rcases h3 with h | h | h
    · simp [h]
    · rw [hE, Option.some.injEq] at h
      subst h
      split_ifs <;> first | rfl | contradiction
    · rw [(As_eq_true_iff e).mpr h]
      split_ifs <;> first | rfl | contradiction

/-- Witness of C15 on a JSON syntax error below a single wrap. -/
theorem C15_ToGRPC_invalid_argument_witness :
    ToGRPC (some (Wrap 1 "decode" (some (GoError.SyntaxError 3 "unexpected end" 9)) [])) =
      some (status.Error codes.InvalidArgument "decode: unexpected end") :=
  (C15_ToGRPC_invalid_argument
    (Wrap 1 "decode" (some (GoError.SyntaxError 3 "unexpected end" 9)) [])
    (by
      intro n hn
      have := (mem_causeTree_iff _ _).mpr hn
      simp only [causeTree, causesBelow, causesOf, Wrap, List.mem_cons, List.mem_nil_iff,
        or_false] at this
      rcases this with rfl | rfl <;> rfl)
    (by
      intro n hn
      have := (mem_causeTree_iff _ _).mpr hn
      simp only [causeTree, causesBelow, causesOf, Wrap, List.mem_cons, List.mem_nil_iff,
        or_false] at this
      rcases this with rfl | rfl <;> rfl)
    (Or.inr (Or.inr ⟨GoError.SyntaxError 3 "unexpected end" 9,
      InChain.step _ _ _ (Or.inl rfl) (InChain.self _), rfl⟩))).trans (by decide)

theorem ToGRPC_none_iff (e : GoError) : ToGRPC (some e) = none ↔ e.Error = none := by
  rw [ToGRPC_eq]
  simp

theorem ToGRPC_message (e : GoError) (st : status.Status) (h : ToGRPC (some e) = some st) :
    e.Error = some st.Message := by
  rw [ToGRPC_eq] at h
  cases hE : e.Error with
  | none => simp [hE] at h
  | some msg =>
    simp only [hE, Option.map_some', Option.some.injEq] at h
    subst h
    split_ifs <;> rfl

/-- C16, amended: for every non-nil error that matches none of the predicates (its chain
contains neither `ErrNotPermitted` nor `sql.ErrNoRows`, it is not an
invalid-UUID-length error, its text is not exactly `invalid UUID format`, its
chain contains no JSON syntax error), `ToGRPC` returns the status `Internal`
with the text of the error. `ToGRPC` returns for every error whose `Error()`
returns, which is every error with no nil cause in its tree, and the code it
returns is always one of `Unauthenticated`, `NotFound`, `InvalidArgument`,
`Internal`. -/
theorem C16_ToGRPC_default_Internal (e : GoError) :
    ((∀ n, InChain e n → n.same ErrNotPermitted = false) →
      (∀ n, InChain e n → n.same sql.ErrNoRows = false) →
      uuid.IsInvalidLengthError (some e) = false →
      e.Error ≠ some "invalid UUID format" →
      (∀ n, InChain e n → errors.isSyntaxError n = false) →
      ToGRPC (some e) = e.Error.map (status.Error codes.Internal)) ∧
    (ToGRPC (some e) = none ↔ e.Error = none) ∧
    (noNilCause e = true → ∃ st, ToGRPC (some e) = some st) ∧
    (∀ st, ToGRPC (some e) = some st →
      st.Code = codes.Unauthenticated ∨ st.Code = codes.NotFound ∨
      st.Code = codes.InvalidArgument ∨ st.Code = codes.Internal) := by
  refine ⟨?_, ToGRPC_none_iff e, ?_, ?_⟩
  · intro h1 h2 h3 h4 h5
    rw [ToGRPC_eq, (Is_eq_false_iff e ErrNotPermitted).mpr h1,
      (Is_eq_false_iff e sql.ErrNoRows).mpr h2, h3, (As_eq_false_iff e).mpr h5]
    cases hE : e.Error with
    | none => rfl
    | some msg =>
      have hne : msg ≠ "invalid UUID format" := by
        intro hEq
        exact h4 (by rw [hE, hEq])
      simp [hne]
  · intro hn
    cases hT : ToGRPC (some e) with
    | some st => exact ⟨st, rfl⟩
    | none =>
      have := (Error_none_iff e).mp ((ToGRPC_none_iff e).mp hT)
      rw [hn] at this
      exact absurd this (by decide)
  · intro st hst
    rw [ToGRPC_eq] at hst
    cases hE : e.Error with
    | none => simp [hE] at hst
    | some msg =>
      simp only [hE, Option.map_some', Option.some.injEq] at hst
      subst hst
      split_ifs <;> simp [status.Error]

/-- C16, counterexample: `Wrap("m", nil)` is a non-nil error that matches none
of the five predicates, and `ToGRPC` returns no status for it: `msg :=
err.Error()` panics on the nil cause. So `ToGRPC` is not total on non-nil
errors. -/
theorem C16_counterexample :
    errors.Is (some (Wrap 1 "m" none [])) (some ErrNotPermitted) = false ∧
    errors.Is (some (Wrap 1 "m" none [])) (some sql.ErrNoRows) = false ∧
    uuid.IsInvalidLengthError (some (Wrap 1 "m" none [])) = false ∧
    (Wrap 1 "m" none []).Error ≠ some "invalid UUID format" ∧
    errors.As (some (Wrap 1 "m" none [])) = false ∧
    ToGRPC (some (Wrap 1 "m" none [])) = none ∧
    ¬ ∀ e : GoError, ∃ st, ToGRPC (some e) = some st := by
  refine ⟨by decide, by decide, rfl, by decide, by decide, by decide, ?_⟩
  intro h
  obtain ⟨st, hst⟩ := h (Wrap 1 "m" none [])
  have hnone : ToGRPC (some (Wrap 1 "m" none [])) = none := by decide
  rw [hnone] at hst
  exact absurd hst (by simp)

/-- Witness of C16 on a plain `errors.New` value wrapped once. -/
theorem C16_ToGRPC_default_Internal_witness :
    ToGRPC (some (Wrap 1 "open" (some (errors.New 2 "disk full")) [String "path" "/x"])) =
      some (status.Error codes.Internal "open: disk full path=/x") :=
  ((C16_ToGRPC_default_Internal
      (Wrap 1 "open" (some (errors.New 2 "disk full")) [String "path" "/x"])).1
    (by
      intro n hn
      rcases InChain_Wrap_leaf 1 2 "open" "disk full" [String "path" "/x"] n hn with
        rfl | rfl <;> rfl)
    (by
      intro n hn
      rcases InChain_Wrap_leaf 1 2 "open" "disk full" [String "path" "/x"] n hn with
        rfl | rfl <;> rfl)
    rfl
    (by decide)
    (by
      intro n hn
      rcases InChain_Wrap_leaf 1 2 "open" "disk full" [String "path" "/x"] n hn with
        rfl | rfl <;> rfl)).trans (by decide)

theorem Error_eq_composed (e : GoError) (A : List Attr) (m : Option string)
    (hA : e.attrs = some A) (hm : e.composed = some m) :
    e.Error = m.map (fun msg => msg ++ renderAttrs A) := by
  cases e with
  | serror p se =>
    simp only [GoError.attrs, GoError.composed, Option.some.injEq] at hA hm
    subst hA hm
    rw [Error_serror, serror_Error_eq]
    rfl
  | wrapped p se =>
    simp only [GoError.attrs, GoError.composed, Option.some.injEq] at hA hm
    subst hA hm
    rw [Error_wrapped, wrapped_Error_eq]
  | wrappedMulti p se =>
    simp only [GoError.attrs, GoError.composed, Option.some.injEq] at hA hm
    subst hA hm
    rw [Error_wrappedMulti, wrappedMulti_Error_eq]
  | _ => simp [GoError.attrs] at hA

/-- C17: for every non-nil error `e`, whatever code `ToGRPC` assigns, the
message of the status it returns is exactly `e.Error()`, and it returns one
whenever `e.Error()` returns; for a structured error that is the composed
message followed by the rendered attributes. -/
theorem C17_ToGRPC_message (e : GoError) :
    (∀ st, ToGRPC (some e) = some st → e.Error = some st.Message) ∧
    (∀ msg, e.Error = some msg → ∃ c, ToGRPC (some e) = some (status.Error c msg)) ∧
    (∀ A m st, e.attrs = some A → e.composed = some (some m) →
      ToGRPC (some e) = some st → st.Message = m ++ renderAttrs A) := by
  refine ⟨ToGRPC_message e, ?_, ?_⟩
  · intro msg hE
    rw [ToGRPC_eq, hE]
    simp only [Option.map_some']
    split_ifs <;> exact ⟨_, rfl⟩
  · intro A m st hA hm hst
    have h1 := ToGRPC_message e st hst
    rw [Error_eq_composed e A (some m) hA hm] at h1
    simpa using h1.symm

/-- Witness of C17 on a structured error with two attributes. -/
theorem C17_ToGRPC_message_witness :
    (New 1 "msg" [String "a" "1", Int "b" 2]).Error = some "msg a=1 b=2" ∧
    ToGRPC (some (New 1 "msg" [String "a" "1", Int "b" 2])) =
      some (status.Error codes.Internal "msg a=1 b=2") ∧
    (status.Error codes.Internal "msg a=1 b=2").Message = "msg" ++ renderAttrs [String "a" "1", Int "b" 2] :=
  ⟨(C17_ToGRPC_message (New 1 "msg" [String "a" "1", Int "b" 2])).1
      (status.Error codes.Internal "msg a=1 b=2") (by decide),
   by decide,
   (C17_ToGRPC_message (New 1 "msg" [String "a" "1", Int "b" 2])).2.2
      [String "a" "1", Int "b" 2] "msg" (status.Error codes.Internal "msg a=1 b=2")
      rfl rfl (by decide)⟩

/-! ## The two renderings together -/

/-- C18: the two rendering targets stay in sync: for every structured error `e`
with attributes `A`, whenever `Log` returns it has passed the sink one call
whose message `m` and fields satisfy `e.Error() = m` followed by the flat
rendering of `A`, the fields being `attrsToSlog` of the same `A`; and `Log`
returns such a call whenever `e.Error()` and `attrsToSlog(A)` return. -/
theorem C18_renderings_in_sync (ctx : context.Context) (logger : slog.Logger)
    (L : slog.Level) (e : GoError) (A : List Attr) (hA : e.attrs = some A) :
    (∀ logger1, Log ctx logger L (some e) = some logger1 →
      ∃ c : slog.Call, logger1.calls = logger.calls ++ [c] ∧
        e.Error = some (c.msg ++ renderAttrs A) ∧ attrsToSlog A = some c.args) ∧
    (∀ t fs, e.Error = some t → attrsToSlog A = some fs →
      ∃ msg, Log ctx logger L (some e) = some (logger.Log ctx L msg fs) ∧
        t = msg ++ renderAttrs A) := by
  obtain ⟨m, hm⟩ := composed_isSome_of_attrs e A hA
  have hE := Error_eq_composed e A m hA hm
  have hL := Log_structured ctx logger L e A m hA hm
  constructor
  · intro logger1 hlog
    rw [hL] at hlog
    cases m with
    | none => simp at hlog
    | some msg =>
      cases hfs : attrsToSlog A with
      | none => simp [hfs] at hlog
      | some fs =>
        simp only [hfs, Option.some_bind, Option.map_some', Option.some.injEq] at hlog
        subst hlog
        exact ⟨⟨ctx, L, msg, fs⟩, rfl, by simpa using hE, rfl⟩
  · intro t fs ht hfs
    cases m with
    | none => simp [ht] at hE
    | some msg =>
      refine ⟨msg, ?_, ?_⟩
      · rw [hL, hfs]
        rfl
      · rw [ht] at hE
        simpa using hE

/-- Witness of C18 on the single wrap of `TestWrappedErrors`. -/
theorem C18_renderings_in_sync_witness :
    (Wrap 1 "msg" (some (errors.New 2 "malheur")) [String "a" "1", String "b" "2"]).Error =
      some ("msg: malheur" ++ renderAttrs [String "a" "1", String "b" "2"]) ∧
    Log ⟨0⟩ ⟨[]⟩ slog.LevelWarn
      (some (Wrap 1 "msg" (some (errors.New 2 "malheur")) [String "a" "1", String "b" "2"])) =
      some ⟨[⟨⟨0⟩, slog.LevelWarn, "msg: malheur",
        [slog.Attr.String "a" "1", slog.Attr.String "b" "2"]⟩]⟩ :=
  ⟨by
    obtain ⟨c, hc, hE, _⟩ := (C18_renderings_in_sync ⟨0⟩ ⟨[]⟩ slog.LevelWarn
      (Wrap 1 "msg" (some (errors.New 2 "malheur")) [String "a" "1", String "b" "2"])
      [String "a" "1", String "b" "2"] rfl).1
      ⟨[⟨⟨0⟩, slog.LevelWarn, "msg: malheur",
        [slog.Attr.String "a" "1", slog.Attr.String "b" "2"]⟩]⟩ rfl
    simp only [List.nil_append, List.cons.injEq, and_true] at hc
    rw [← hc] at hE
    exact hE,
   rfl⟩

theorem multi_single_message (M : string) (c : GoError) (A : List Attr) :
    (wrappedMulti.mk M [some c] A).message = (wrapped.mk M (some c) A).message := by
  simp only [wrappedMulti.message, wrapped.message, wrappedMulti.errs, wrappedMulti.msg,
    wrapped.err, wrapped.msg, collectTexts, error.Error]
  cases c.Error with
  | none => by_cases hM : M = "" <;> simp [hM]
  | some t => by_cases hM : M = "" <;> simp [hM, strings.Join]

/-- C20: a multi wrap of a single cause renders like a single wrap: for every
message `M`, non-nil cause `c` and attribute list `A`,
`WrapMulti(M, [c], A...).Error()` equals `Wrap(M, c, A...).Error()`, and `Log`
passes the sink the same message and fields for both (the two calls also panic
in the same cases). -/
theorem C20_multi_of_one_is_single (p q : Nat) (M : string) (c : GoError) (A : List Attr)
    (ctx : context.Context) (logger : slog.Logger) (L : slog.Level) :
    (WrapMulti p M [some c] A).Error = (Wrap q M (some c) A).Error ∧
    Log ctx logger L (some (WrapMulti p M [some c] A)) =
      Log ctx logger L (some (Wrap q M (some c) A)) := by
  constructor
  · rw [WrapMulti, Wrap, Error_wrappedMulti, Error_wrapped, wrappedMulti_Error_eq,
      wrapped_Error_eq, multi_single_message]
    rfl
  · rw [Log_structured ctx logger L (WrapMulti p M [some c] A) A _ rfl rfl,
      Log_structured ctx logger L (Wrap q M (some c) A) A _ rfl rfl, multi_single_message]

/-! ## Classification under wrapping -/

theorem wrap_text_ne (M t : string) (A : List Attr) (h : M ≠ "" ∨ A ≠ []) :
    (if M = "" then t else M ++ ": " ++ t) ++ renderAttrs A ≠ t := by
  intro hEq
  have hlen := congrArg String.length hEq
  by_cases hM : M = ""
  · cases A with
    | nil => simp [hM] at h
    | cons a rest =>
      simp only [hM, if_true, renderAttrs_cons, String.length_append] at hlen
      have h1 : (" " : string).length = 1 := rfl
      omega
  · simp only [hM, if_false, String.length_append] at hlen
    have h2 : (": " : string).length = 2 := rfl
    omega

theorem Wrap_leaf_Error (p q : Nat) (M t : string) (A : List Attr) :
    (Wrap p M (some (errors.New q t)) A).Error =
      some ((if M = "" then t else M ++ ": " ++ t) ++ renderAttrs A) := by
  rw [Wrap, Error_wrapped, wrapped_Error_eq]
  simp only [wrapped.message, wrapped.msg, wrapped.err, wrapped.attrs, error.Error,
    errors.New, GoError.Error]
  by_cases hM : M = "" <;> simp [hM]

/-- C19: classification as `InvalidArgument` is not stable under wrapping. A
plain error whose text is exactly `invalid UUID format` is classified
`InvalidArgument`, and wrapping it with the non-empty message `parse id`, or
with no message and one attribute, is classified `Internal`. In general, for
every such plain error other than the two sentinels, every wrap of it with a
non-empty message or a non-empty attribute list is classified `Internal`, since
the test is on the text of the outermost error; likewise a wrapped
invalid-UUID-length error, since the test is on the type of the outermost
error. -/
theorem C19_InvalidArgument_not_stable :
    (∃ (e : GoError) (M : string) (A : List Attr), (M ≠ "" ∨ A ≠ []) ∧
      (ToGRPC (some e)).map status.Status.Code = some codes.InvalidArgument ∧
      (ToGRPC (some (Wrap 1 M (some e) A))).map status.Status.Code = some codes.Internal) ∧
    (∀ (p q : Nat) (M : string) (A : List Attr), q ≠ 100 → q ≠ 200 → (M ≠ "" ∨ A ≠ []) →
      ToGRPC (some (errors.New q "invalid UUID format")) =
        some (status.Error codes.InvalidArgument "invalid UUID format") ∧
      ToGRPC (some (Wrap p M (some (errors.New q "invalid UUID format")) A)) =
        some (status.Error codes.Internal
          ((if M = "" then "invalid UUID format" else M ++ ": " ++ "invalid UUID format") ++
            renderAttrs A))) ∧
    (∀ (p : Nat) (len : int) (M : string) (A : List Attr),
      ToGRPC (some (GoError.invalidLengthError len)) =
        some (status.Error codes.InvalidArgument ("invalid UUID length: " ++ toString len)) ∧
      (ToGRPC (some (Wrap p M (some (GoError.invalidLengthError len)) A))).map
        status.Status.Code = some codes.Internal) := by
  have general : ∀ (p q : Nat) (M : string) (A : List Attr), q ≠ 100 → q ≠ 200 →
      (M ≠ "" ∨ A ≠ []) →
      ToGRPC (some (errors.New q "invalid UUID format")) =
        some (status.Error codes.InvalidArgument "invalid UUID format") ∧
      ToGRPC (some (Wrap p M (some (errors.New q "invalid UUID format")) A)) =
        some (status.Error codes.Internal
          ((if M = "" then "invalid UUID format" else M ++ ": " ++ "invalid UUID format") ++
            renderAttrs A)) := by
    intro p q M A h1 h2 hMA
    constructor
    · simp [ToGRPC, error.Error, errors.New, GoError.Error, errors.Is, errors.is,
        GoError.same, ErrNotPermitted, sql.ErrNoRows, h1, h2, uuid.IsInvalidLengthError]
    · have hno : ∀ s : GoError, (∃ r u, s = errors.New r u ∧ q ≠ r) →
          errors.Is (some (Wrap p M (some (errors.New q "invalid UUID format")) A)) (some s)
            = false := by
        rintro s ⟨r, u, rfl, hr⟩
        rw [Is_eq_false_iff]
        intro n hn
        rcases InChain_Wrap_leaf p q M "invalid UUID format" A n hn with rfl | rfl
        · rfl
        · simp [GoError.same, errors.New, hr]
      have hAs : errors.As (some (Wrap p M (some (errors.New q "invalid UUID format")) A))
          = false := by
        rw [As_eq_false_iff]
        intro n hn
        rcases InChain_Wrap_leaf p q M "invalid UUID format" A n hn with rfl | rfl <;> rfl
      rw [ToGRPC_eq, Wrap_leaf_Error, hno ErrNotPermitted ⟨100, _, rfl, h1⟩,
        hno sql.ErrNoRows ⟨200, _, rfl, h2⟩, hAs]
      have hne := wrap_text_ne M "invalid UUID format" A hMA
      have hlen : uuid.IsInvalidLengthError
          (some (Wrap p M (some (errors.New q "invalid UUID format")) A)) = false := rfl
      simp [hne, hlen]
  refine ⟨?_, general, ?_⟩
  · refine ⟨errors.New 2 "invalid UUID format", "parse id", [], Or.inl (by decide), ?_, ?_⟩
    · rw [(general 1 2 "parse id" [] (by decide) (by decide) (Or.inl (by decide))).1]
      rfl
    · rw [(general 1 2 "parse id" [] (by decide) (by decide) (Or.inl (by decide))).2]
      rfl
  · intro p len M A
    constructor
    · simp [ToGRPC, error.Error, GoError.Error, errors.Is, errors.is,
        GoError.same, ErrNotPermitted, sql.ErrNoRows, errors.New, uuid.IsInvalidLengthError]
    · have hchain : ∀ n, InChain (Wrap p M (some (GoError.invalidLengthError len)) A) n →
          n = Wrap p M (some (GoError.invalidLengthError len)) A ∨
            n = GoError.invalidLengthError len := by
        intro n hn
        have := (mem_causeTree_iff _ _).mpr hn
        simpa [causeTree, causesBelow, causesOf, Wrap] using this
      have hno : ∀ r u, errors.Is (some (Wrap p M (some (GoError.invalidLengthError len)) A))
          (some (errors.New r u)) = false := by
        intro r u
        rw [Is_eq_false_iff]
        intro n hn
        rcases hchain n hn with rfl | rfl <;> rfl
      have hAs : errors.As (some (Wrap p M (some (GoError.invalidLengthError len)) A))
          = false := by
        rw [As_eq_false_iff]
        intro n hn
        rcases hchain n hn with rfl | rfl <;> rfl
      have hE : (Wrap p M (some (GoError.invalidLengthError len)) A).Error =
          some ((if M = "" then "invalid UUID length: " ++ toString len
            else M ++ ": " ++ ("invalid UUID length: " ++ toString len)) ++ renderAttrs A) := by
        rw [Wrap, Error_wrapped, wrapped_Error_eq]
        simp only [wrapped.message, wrapped.msg, wrapped.err, wrapped.attrs, error.Error,
          GoError.Error]
        by_cases hM : M = "" <;> simp [hM]
      rw [ToGRPC_eq, hE]
      have h1 := hno 100 "not permitted"
      have h2 := hno 200 "sql: no rows in result set"
      simp only [ErrNotPermitted, sql.ErrNoRows, h1, h2, hAs, Option.map_some']
      have hlen : uuid.IsInvalidLengthError
          (some (Wrap p M (some (GoError.invalidLengthError len)) A)) = false := rfl
      rw [hlen]
      have hne : (if M = "" then "invalid UUID length: " ++ toString len
          else M ++ ": " ++ ("invalid UUID length: " ++ toString len)) ++ renderAttrs A ≠
          "invalid UUID format" := by
        intro hEq
        have hl := congrArg String.length hEq
        have h19 : ("invalid UUID format" : string).length = 19 := rfl
        have h21 : ("invalid UUID length: " : string).length = 21 := rfl
        by_cases hM : M = ""
        · simp only [hM, if_true, String.length_append, h19, h21] at hl
          omega
        · simp only [hM, if_false, String.length_append, h19, h21] at hl
          omega
      simp [hne, status.Error]

/-- Witness of C19: the plain error, the wrap with a message and the wrap with
one attribute. -/
theorem C19_InvalidArgument_not_stable_witness :
    ToGRPC (some (errors.New 2 "invalid UUID format")) =
      some (status.Error codes.InvalidArgument "invalid UUID format") ∧
    ToGRPC (some (Wrap 1 "parse id" (some (errors.New 2 "invalid UUID format")) [])) =
      some (status.Error codes.Internal "parse id: invalid UUID format") ∧
    ToGRPC (some (Wrap 1 "" (some (errors.New 2 "invalid UUID format")) [String "id" "x"])) =
      some (status.Error codes.Internal "invalid UUID format id=x") :=
  ⟨(C19_InvalidArgument_not_stable.2.1 1 2 "parse id" [] (by decide) (by decide)
      (Or.inl (by decide))).1,
   (C19_InvalidArgument_not_stable.2.1 1 2 "parse id" [] (by decide) (by decide)
      (Or.inl (by decide))).2.trans (by decide),
   (C19_InvalidArgument_not_stable.2.1 1 2 "" [String "id" "x"] (by decide) (by decide)
      (Or.inr (by simp))).2.trans (by decide)⟩

end serr
